import Mathlib

/-!
# Verification of the TOPSIS scoring engine

This file gives a shallow embedding of the TOPSIS scoring engine
(`runTopsisCalculation` and its data model) and proves the specified
properties about it.

Modelling conventions:
* JavaScript numbers are modelled by real numbers `ℝ`; the IEEE-754
  not-a-number sentinel produced by `0/0` is modelled by `Option ℝ`
  (`none` = NaN, `some s` = the numeric value `s`).
* `Record<K, number>` maps are modelled as `K → Option ℝ`; the source's
  `m[k] || 0` defaulting is `(m k).getD 0`.
* `Map` built from an association list keeps the *last* binding for a
  duplicated key, hence the `foldl` in `criteriaMapGet`.
* The engine's in-place `Array.prototype.sort` with comparator
  `(a, b) => scoreB - scoreA` (NaN mapped to -∞) produces a list that is a
  permutation of its input, sorted so that consecutive elements satisfy
  `resultGE`; it is modelled by `List.insertionSort resultGE`.
-/

namespace Topsis

open Classical

noncomputable section

/-- The criterion keys: the numeric attributes of a material plus the
synthetic cost key `cout`. -/
inductive CriterionKey
  | temp
  | corrosion
  | vie
  | pose
  | acoustique
  | feu
  | environnement
  | surpression
  | cout
deriving DecidableEq

/-- A pipe material from the static catalog: a name, network-type tags, the
available pressure ratings and one numeric attribute per non-cost
criterion key. -/
structure Material where
  name : String
  type : String
  pn : List ℝ
  temp : ℝ
  corrosion : ℝ
  vie : ℝ
  pose : ℝ
  acoustique : ℝ
  feu : ℝ
  environnement : ℝ
  surpression : ℝ

instance : Inhabited Material :=
  ⟨{ name := "", type := "", pn := [], temp := 0, corrosion := 0, vie := 0,
     pose := 0, acoustique := 0, feu := 0, environnement := 0, surpression := 0 }⟩

/-- A criterion definition: key, display label and benefit/cost polarity. -/
structure Criterion where
  key : CriterionKey
  label : String
  isBenefit : Bool

/-- The input of one engine invocation. -/
structure TopsisInput where
  selectedMaterialsData : List Material
  selectedCriteriaKeys : List CriterionKey
  allCriteriaDefinition : List Criterion
  costs : String → Option ℝ
  weights : CriterionKey → Option ℝ

/-- One ranked result row (score `none` models the NaN sentinel). -/
structure TopsisResult where
  name : String
  score : Option ℝ
  originalData : Material
  calculatedValues : CriterionKey → Option ℝ

/-- A result row together with the full intermediate computation trail. -/
structure TopsisFullResults extends TopsisResult where
  initialMatrix : List (List ℝ)
  normalizedMatrix : List (List ℝ)
  weightedMatrix : List (List ℝ)
  idealSolution : List ℝ
  antiIdealSolution : List ℝ
  distanceToIdeal : List ℝ
  distanceToAntiIdeal : List ℝ

/-- The raw decision-matrix value of a material on a criterion key: for the
synthetic key `cout` the cost map is consulted (`costs[material.name] || 0`),
otherwise the material's static attribute is read. -/
def rawValue (costs : String → Option ℝ) (material : Material) : CriterionKey → ℝ
  | .cout => (costs material.name).getD 0
  | .temp => material.temp
  | .corrosion => material.corrosion
  | .vie => material.vie
  | .pose => material.pose
  | .acoustique => material.acoustique
  | .feu => material.feu
  | .environnement => material.environnement
  | .surpression => material.surpression

/-- Stage 1: the initial decision matrix, one row per selected material and
one column per selected criterion key. -/
def initialMatrix (inp : TopsisInput) : List (List ℝ) :=
  inp.selectedMaterialsData.map fun material =>
    inp.selectedCriteriaKeys.map fun criterionKey =>
      rawValue inp.costs material criterionKey

/-- The raw values of a criterion `k` across the selected materials; when
`selectedCriteriaKeys = [k]` this is the single column of the initial
matrix. -/
def rawColumn (inp : TopsisInput) (k : CriterionKey) : List ℝ :=
  inp.selectedMaterialsData.map fun m => rawValue inp.costs m k

/-- `numRows = initialMatrix.length`. -/
def numRows (inp : TopsisInput) : ℕ := (initialMatrix inp).length

/-- `numCols = initialMatrix[0].length`. -/
def numCols (inp : TopsisInput) : ℕ := ((initialMatrix inp).headD []).length

/-- Matrix entry `M[i][j]` (out-of-range reads default to `0`; in the
engine all reads are in range). -/
def entry (M : List (List ℝ)) (i j : ℕ) : ℝ := (M.getD i []).getD j 0

/-- Column `j` of a matrix, `M.map (row => row[j])`. -/
def column (M : List (List ℝ)) (j : ℕ) : List ℝ := M.map fun row => row.getD j 0

/-- The column-wise sum of squares `sum over i of M[i][j]^2`. -/
def sumOfSquares (M : List (List ℝ)) (j : ℕ) : ℝ :=
  (M.map fun row => row.getD j 0 ^ 2).sum

/-- The Euclidean (L2) norm of column `j`. -/
def colNorm (M : List (List ℝ)) (j : ℕ) : ℝ := Real.sqrt (sumOfSquares M j)

/-- Stage 2: the normalized matrix: each entry is divided by its column's
L2 norm; a column with norm `0` is set entirely to `0`. -/
def normalizedMatrix (inp : TopsisInput) : List (List ℝ) :=
  (initialMatrix inp).map fun row =>
    (List.range (numCols inp)).map fun j =>
      if colNorm (initialMatrix inp) j = 0 then 0
      else row.getD j 0 / colNorm (initialMatrix inp) j

/-- The weight applied to column `j`: `weights[selectedCriteriaKeys[j]] || 0`. -/
def weightAt (inp : TopsisInput) (j : ℕ) : ℝ :=
  match inp.selectedCriteriaKeys[j]? with
  | some k => (inp.weights k).getD 0
  | none => 0

/-- Stage 3: the weighted normalized matrix,
`weighted[i][j] = normalized[i][j] * (weights[key_j] || 0)`. -/
def weightedMatrix (inp : TopsisInput) : List (List ℝ) :=
  (normalizedMatrix inp).map fun row =>
    (List.range (numCols inp)).map fun j => row.getD j 0 * weightAt inp j

/-- `new Map(allCriteriaDefinition.map(c => [c.key, c])).get(k)`: the last
catalog entry with key `k`, if any. -/
def criteriaMapGet (defs : List Criterion) (k : CriterionKey) : Option Criterion :=
  defs.foldl (fun acc c => if c.key = k then some c else acc) none

/-- The truthiness of `criteriaMap.get(k)?.isBenefit`: `false` both for a
cost-type criterion and for a key absent from the catalog. -/
def benefitFlag (defs : List Criterion) (k : CriterionKey) : Bool :=
  match criteriaMapGet defs k with
  | some c => c.isBenefit
  | none => false

/-- The benefit flag of column `j` (via `selectedCriteriaKeys[j]`). -/
def benefitFlagAt (inp : TopsisInput) (j : ℕ) : Bool :=
  match inp.selectedCriteriaKeys[j]? with
  | some k => benefitFlag inp.allCriteriaDefinition k
  | none => false

/-- `Math.max(...l)` for the nonempty lists the engine builds. -/
def listMax : List ℝ → ℝ
  | [] => 0
  | x :: xs => xs.foldl max x

/-- `Math.min(...l)` for the nonempty lists the engine builds. -/
def listMin : List ℝ → ℝ
  | [] => 0
  | x :: xs => xs.foldl min x

/-- Stage 4: the ideal solution: column max for a benefit criterion,
column min otherwise (over the weighted matrix). -/
def idealSolution (inp : TopsisInput) (j : ℕ) : ℝ :=
  if benefitFlagAt inp j then listMax (column (weightedMatrix inp) j)
  else listMin (column (weightedMatrix inp) j)

/-- Stage 4: the anti-ideal solution: column min for a benefit criterion,
column max otherwise (over the weighted matrix). -/
def antiIdealSolution (inp : TopsisInput) (j : ℕ) : ℝ :=
  if benefitFlagAt inp j then listMin (column (weightedMatrix inp) j)
  else listMax (column (weightedMatrix inp) j)

/-- Stage 5: Euclidean distance of row `i` to the ideal solution (`D+`). -/
def distanceToIdeal (inp : TopsisInput) (i : ℕ) : ℝ :=
  Real.sqrt (((List.range (numCols inp)).map fun j =>
    (entry (weightedMatrix inp) i j - idealSolution inp j) ^ 2).sum)

/-- Stage 5: Euclidean distance of row `i` to the anti-ideal solution (`D-`). -/
def distanceToAntiIdeal (inp : TopsisInput) (i : ℕ) : ℝ :=
  Real.sqrt (((List.range (numCols inp)).map fun j =>
    (entry (weightedMatrix inp) i j - antiIdealSolution inp j) ^ 2).sum)

/-- Stage 5: the closeness score `D- / (D+ + D-)`, or the NaN sentinel
(`none`) when `D+ + D- = 0`. -/
def scores (inp : TopsisInput) (i : ℕ) : Option ℝ :=
  if distanceToIdeal inp i + distanceToAntiIdeal inp i = 0 then none
  else some (distanceToAntiIdeal inp i /
    (distanceToIdeal inp i + distanceToAntiIdeal inp i))

/-- The per-row record of raw values used
(`calculatedValues[key] = initialMatrix[index][j]`, last duplicate wins). -/
def calculatedValues (inp : TopsisInput) (index : ℕ) : CriterionKey → Option ℝ :=
  inp.selectedCriteriaKeys.enum.foldl
    (fun acc p k => if k = p.2 then some (entry (initialMatrix inp) index p.1) else acc k)
    (fun _ => none)

/-- The result row built for the material at `index`, carrying the full
computation trail. -/
def resultAt (inp : TopsisInput) (index : ℕ) : TopsisFullResults :=
  { name := (inp.selectedMaterialsData.getD index default).name
    score := scores inp index
    originalData := inp.selectedMaterialsData.getD index default
    calculatedValues := calculatedValues inp index
    initialMatrix := initialMatrix inp
    normalizedMatrix := normalizedMatrix inp
    weightedMatrix := weightedMatrix inp
    idealSolution := (List.range (numCols inp)).map (idealSolution inp)
    antiIdealSolution := (List.range (numCols inp)).map (antiIdealSolution inp)
    distanceToIdeal := (List.range (numRows inp)).map (distanceToIdeal inp)
    distanceToAntiIdeal := (List.range (numRows inp)).map (distanceToAntiIdeal inp) }

/-- Stage 7 (before sorting): one result row per input material, in input
order. -/
def results (inp : TopsisInput) : List TopsisFullResults :=
  (List.range inp.selectedMaterialsData.length).map (resultAt inp)

/-- The static numeric attribute of a material for a non-cost criterion key
(`material[criterionKey as keyof Omit<Material, 'name' | 'type' | 'pn'>]`);
the synthetic key `cout` is excluded by the source's type and mapped to `0`
here (the engine never reads it through this path). -/
def staticAttribute (material : Material) : CriterionKey → ℝ
  | .temp => material.temp
  | .corrosion => material.corrosion
  | .vie => material.vie
  | .pose => material.pose
  | .acoustique => material.acoustique
  | .feu => material.feu
  | .environnement => material.environnement
  | .surpression => material.surpression
  | .cout => 0

/-- The sort order on score keys induced by the comparator
`(a, b) => scoreB - scoreA` with NaN mapped to `-Infinity`:
`scoreKeyGE a b` holds when `a` may come (weakly) before `b`. -/
def scoreKeyGE : Option ℝ → Option ℝ → Prop
  | none, none => True
  | none, some _ => False
  | some _, none => True
  | some x, some y => y ≤ x

/-- The sort order lifted to result rows. -/
def resultGE (a b : TopsisFullResults) : Prop := scoreKeyGE a.score b.score

/-- The TOPSIS engine: returns `[]` on an empty selection, otherwise the
result rows sorted descending by score with NaN (`none`) last. -/
def runTopsisCalculation (inp : TopsisInput) : List TopsisFullResults :=
  if inp.selectedMaterialsData.length = 0 ∨ inp.selectedCriteriaKeys.length = 0 then []
  else List.insertionSort resultGE (results inp)

/-! ### Static catalog data from the source -/

/-- The static material catalog `materialsDb`. -/
def materialsDb : List Material :=
  [ { name := "Cuivre", type := "EF, ECS", pn := [10, 16, 20, 25], temp := 90,
      corrosion := 10, vie := 70, pose := 3, acoustique := 7, feu := 7,
      environnement := 3, surpression := 10 },
    { name := "PER", type := "EF, ECS", pn := [6, 10, 16], temp := 90,
      corrosion := 7, vie := 50, pose := 9, acoustique := 7, feu := 5,
      environnement := 5, surpression := 3 },
    { name := "PP-R", type := "EF, ECS", pn := [10, 16, 20, 25], temp := 95,
      corrosion := 9, vie := 50, pose := 6, acoustique := 7, feu := 7,
      environnement := 5, surpression := 7 },
    { name := "Fonte", type := "EV", pn := [10, 16, 25, 40], temp := 80,
      corrosion := 9, vie := 100, pose := 3, acoustique := 10, feu := 9,
      environnement := 3, surpression := 10 },
    { name := "CPVC", type := "EF, ECS", pn := [10, 16, 20, 25], temp := 95,
      corrosion := 10, vie := 60, pose := 9, acoustique := 7, feu := 9,
      environnement := 5, surpression := 10 },
    { name := "PEHD", type := "EF, EV", pn := [6, 10, 16, 20, 25], temp := 80,
      corrosion := 10, vie := 100, pose := 8, acoustique := 7, feu := 5,
      environnement := 5, surpression := 9 },
    { name := "PVC", type := "EV", pn := [6, 10, 16, 25], temp := 60,
      corrosion := 8, vie := 50, pose := 9, acoustique := 6, feu := 5,
      environnement := 5, surpression := 6 } ]

/-- The static criteria catalog `allCriteria`: every attribute criterion is
benefit-type, the synthetic cost criterion is cost-type. -/
def allCriteria : List Criterion :=
  [ { key := .temp, label := "Température maximale (°C)", isBenefit := true },
    { key := .corrosion, label := "Résistance à la corrosion", isBenefit := true },
    { key := .vie, label := "Durée de vie (années)", isBenefit := true },
    { key := .pose, label := "Facilité de pose", isBenefit := true },
    { key := .acoustique, label := "Performance acoustique", isBenefit := true },
    { key := .feu, label := "Résistance au feu", isBenefit := true },
    { key := .environnement, label := "Impact environnemental", isBenefit := true },
    { key := .surpression, label := "Résistance à la surpression", isBenefit := true },
    { key := .cout, label := "Coût (MAD/m)", isBenefit := false } ]

/-! ### Concrete inputs used by witnesses and counterexamples -/

/-- Scenario A: one material with a single benefit criterion of value 5 and
weight 1. -/
def inpA : TopsisInput :=
  { selectedMaterialsData := [{ (default : Material) with name := "A", temp := 5 }]
    selectedCriteriaKeys := [.temp]
    allCriteriaDefinition := allCriteria
    costs := fun _ => none
    weights := fun k => if k = .temp then some 1 else none }

/-- Scenario B: two materials with raw values 3 and 4 on a single benefit
criterion of weight 1. -/
def inpB : TopsisInput :=
  { selectedMaterialsData :=
      [{ (default : Material) with name := "M1", temp := 3 },
       { (default : Material) with name := "M2", temp := 4 }]
    selectedCriteriaKeys := [.temp]
    allCriteriaDefinition := allCriteria
    costs := fun _ => none
    weights := fun k => if k = .temp then some 1 else none }

/-- Monotonicity counterexample, first material (before the increase). -/
def cxA : Material := { (default : Material) with name := "A", temp := -2, corrosion := 1 }

/-- Monotonicity counterexample, second material (never changed). -/
def cxB : Material := { (default : Material) with name := "B" }

/-- Monotonicity counterexample, third material (never changed). -/
def cxC : Material := { (default : Material) with name := "C", temp := 1, corrosion := -1 }

/-- Monotonicity counterexample, first material after its raw value on the
benefit criterion `corrosion` is increased from 1 to 3. -/
def cxA' : Material := { cxA with corrosion := 3 }

/-- Monotonicity counterexample input, before the increase: three materials
on the two benefit criteria `temp` and `corrosion`, every weight 1. -/
def cxInput : TopsisInput :=
  { selectedMaterialsData := [cxA, cxB, cxC]
    selectedCriteriaKeys := [.temp, .corrosion]
    allCriteriaDefinition := allCriteria
    costs := fun _ => none
    weights := fun _ => some 1 }

/-- Monotonicity counterexample input, after the increase: identical to
`cxInput` except that `cxA`'s raw value on `corrosion` grew from 1 to 3. -/
def cxInput' : TopsisInput :=
  { selectedMaterialsData := [cxA', cxB, cxC]
    selectedCriteriaKeys := [.temp, .corrosion]
    allCriteriaDefinition := allCriteria
    costs := fun _ => none
    weights := fun _ => some 1 }

/-- Single-criterion monotonicity witness: two materials with values 2, 1. -/
def mwInput : TopsisInput :=
  { selectedMaterialsData :=
      [{ (default : Material) with name := "X", temp := 2 },
       { (default : Material) with name := "Y", temp := 1 }]
    selectedCriteriaKeys := [.temp]
    allCriteriaDefinition := allCriteria
    costs := fun _ => none
    weights := fun _ => some 1 }

/-- Single-criterion monotonicity witness after increasing X's value to 3. -/
def mwInput' : TopsisInput :=
  { selectedMaterialsData :=
      [{ (default : Material) with name := "X", temp := 3 },
       { (default : Material) with name := "Y", temp := 1 }]
    selectedCriteriaKeys := [.temp]
    allCriteriaDefinition := allCriteria
    costs := fun _ => none
    weights := fun _ => some 1 }

/-- An input whose selected criterion key (`cout`) has no entry in the
(empty) criteria catalog. -/
def unkInput : TopsisInput :=
  { selectedMaterialsData :=
      [{ (default : Material) with name := "U" },
       { (default : Material) with name := "V" }]
    selectedCriteriaKeys := [.cout]
    allCriteriaDefinition := []
    costs := fun name => if name = "U" then some 4 else some 3
    weights := fun _ => some 1 }

/-- An input with an empty material selection. -/
def emptyInput : TopsisInput :=
  { selectedMaterialsData := []
    selectedCriteriaKeys := [.temp]
    allCriteriaDefinition := allCriteria
    costs := fun _ => none
    weights := fun _ => some 1 }

end

/-! ## General lemmas about the pipeline -/

theorem scoreKeyGE_some_some {x y : ℝ} : scoreKeyGE (some x) (some y) ↔ y ≤ x := Iff.rfl

theorem scoreKeyGE_total : ∀ a b : Option ℝ, scoreKeyGE a b ∨ scoreKeyGE b a := by
  intro a b
  match a, b with
  | none, none => exact Or.inl trivial
  | none, some y => exact Or.inr trivial
  | some x, none => exact Or.inl trivial
  | some x, some y => exact le_total y x

theorem scoreKeyGE_trans :
    ∀ {a b c : Option ℝ}, scoreKeyGE a b → scoreKeyGE b c → scoreKeyGE a c := by
  intro a b c hab hbc
  match a, b, c with
  | none, none, none => trivial
  | none, none, some z => exact hbc
  | none, some y, _ => exact False.elim hab
  | some x, none, none => trivial
  | some x, none, some z => exact False.elim hbc
  | some x, some y, none => trivial
  | some x, some y, some z => exact le_trans hbc hab

instance : IsTotal TopsisFullResults resultGE :=
  ⟨fun a b => scoreKeyGE_total a.score b.score⟩

instance : IsTrans TopsisFullResults resultGE :=
  ⟨fun _ _ _ hab hbc => scoreKeyGE_trans hab hbc⟩

theorem length_initialMatrix (inp : TopsisInput) :
    (initialMatrix inp).length = inp.selectedMaterialsData.length :=
  List.length_map _ _

theorem numRows_eq (inp : TopsisInput) :
    numRows inp = inp.selectedMaterialsData.length :=
  length_initialMatrix inp

theorem numCols_eq (inp : TopsisInput) (hm : inp.selectedMaterialsData ≠ []) :
    numCols inp = inp.selectedCriteriaKeys.length := by
  cases h : inp.selectedMaterialsData with
  | nil => exact absurd h hm
  | cons m rest => simp [numCols, initialMatrix, h]

theorem sumOfSquares_nonneg (M : List (List ℝ)) (j : ℕ) : 0 ≤ sumOfSquares M j := by
  refine List.sum_nonneg ?_
  intro x hx
  rcases List.mem_map.mp hx with ⟨row, _, hrow⟩
  exact hrow ▸ sq_nonneg _

theorem distanceToIdeal_nonneg (inp : TopsisInput) (i : ℕ) :
    0 ≤ distanceToIdeal inp i := Real.sqrt_nonneg _

theorem distanceToAntiIdeal_nonneg (inp : TopsisInput) (i : ℕ) :
    0 ≤ distanceToAntiIdeal inp i := Real.sqrt_nonneg _

theorem scores_eq_none (inp : TopsisInput) (i : ℕ)
    (h : distanceToIdeal inp i + distanceToAntiIdeal inp i = 0) :
    scores inp i = none := if_pos h

theorem scores_eq_some (inp : TopsisInput) (i : ℕ)
    (h : distanceToIdeal inp i + distanceToAntiIdeal inp i ≠ 0) :
    scores inp i = some (distanceToAntiIdeal inp i /
      (distanceToIdeal inp i + distanceToAntiIdeal inp i)) := if_neg h

theorem scores_mem_unitInterval (inp : TopsisInput) (i : ℕ) :
    ∀ s, scores inp i = some s → 0 ≤ s ∧ s ≤ 1 := by
  intro s hs
  unfold scores at hs
  by_cases h : distanceToIdeal inp i + distanceToAntiIdeal inp i = 0
  · rw [if_pos h] at hs; exact absurd hs (by simp)
  · rw [if_neg h] at hs
    have hden : 0 < distanceToIdeal inp i + distanceToAntiIdeal inp i :=
      lt_of_le_of_ne (add_nonneg (distanceToIdeal_nonneg inp i)
        (distanceToAntiIdeal_nonneg inp i)) (Ne.symm h)
    have hsv : s = distanceToAntiIdeal inp i /
        (distanceToIdeal inp i + distanceToAntiIdeal inp i) := (Option.some_inj.mp hs).symm
    subst hsv
    constructor
    · exact div_nonneg (distanceToAntiIdeal_nonneg inp i) (le_of_lt hden)
    · exact (div_le_one hden).mpr (le_add_of_nonneg_left (distanceToIdeal_nonneg inp i))

theorem run_eq_sorted (inp : TopsisInput)
    (hm : inp.selectedMaterialsData ≠ []) (hk : inp.selectedCriteriaKeys ≠ []) :
    runTopsisCalculation inp = List.insertionSort resultGE (results inp) := by
  rw [runTopsisCalculation, if_neg]
  push_neg
  constructor
  · simpa [List.length_eq_zero] using hm
  · simpa [List.length_eq_zero] using hk

theorem run_perm_results (inp : TopsisInput)
    (hm : inp.selectedMaterialsData ≠ []) (hk : inp.selectedCriteriaKeys ≠ []) :
    (runTopsisCalculation inp).Perm (results inp) := by
  rw [run_eq_sorted inp hm hk]
  exact List.perm_insertionSort resultGE (results inp)

theorem length_results (inp : TopsisInput) :
    (results inp).length = inp.selectedMaterialsData.length := by
  simp [results]

theorem mem_results (inp : TopsisInput) {r : TopsisFullResults} (hr : r ∈ results inp) :
    ∃ i < inp.selectedMaterialsData.length,
      r.score = scores inp i ∧
      r.name = (inp.selectedMaterialsData.getD i default).name := by
  rw [results] at hr
  rcases List.mem_map.mp hr with ⟨i, hi, hfi⟩
  exact ⟨i, List.mem_range.mp hi, by rw [← hfi]; rfl, by rw [← hfi]; rfl⟩

theorem map_getD_range {α : Type _} (l : List α) (d : α) :
    (List.range l.length).map (fun i => l.getD i d) = l := by
  apply List.ext_getElem
  · simp
  · intro i h1 h2
    simp only [List.getElem_map, List.getElem_range]
    exact l.getD_eq_getElem d h2

theorem results_map_name (inp : TopsisInput) :
    (results inp).map (fun r => r.name) =
      inp.selectedMaterialsData.map Material.name := by
  rw [results, List.map_map]
  have h2 : ((fun r : TopsisFullResults => r.name) ∘ resultAt inp) =
      (Material.name ∘ fun i => inp.selectedMaterialsData.getD i default) := rfl
  rw [h2, ← List.map_map, map_getD_range]

theorem row_initialMatrix (inp : TopsisInput) {i : ℕ}
    (hi : i < inp.selectedMaterialsData.length) :
    (initialMatrix inp).getD i [] =
      inp.selectedCriteriaKeys.map
        (rawValue inp.costs (inp.selectedMaterialsData.getD i default)) := by
  unfold initialMatrix
  rw [List.getD_eq_getElem _ _ (by simpa using hi)]
  simp only [List.getElem_map]
  rw [List.getD_eq_getElem _ _ hi]

theorem entry_initialMatrix (inp : TopsisInput) {i j : ℕ}
    (hi : i < inp.selectedMaterialsData.length)
    (hj : j < inp.selectedCriteriaKeys.length) :
    entry (initialMatrix inp) i j =
      rawValue inp.costs (inp.selectedMaterialsData.getD i default)
        (inp.selectedCriteriaKeys.getD j CriterionKey.cout) := by
  unfold entry
  rw [row_initialMatrix inp hi, List.getD_eq_getElem _ _ (by simpa using hj)]
  simp only [List.getElem_map]
  rw [List.getD_eq_getElem _ _ hj]

theorem length_normalizedMatrix (inp : TopsisInput) :
    (normalizedMatrix inp).length = (initialMatrix inp).length :=
  List.length_map _ _

theorem length_weightedMatrix (inp : TopsisInput) :
    (weightedMatrix inp).length = (initialMatrix inp).length := by
  rw [weightedMatrix, List.length_map, length_normalizedMatrix]

theorem row_normalizedMatrix (inp : TopsisInput) {i : ℕ}
    (hi : i < (initialMatrix inp).length) :
    (normalizedMatrix inp).getD i [] =
      (List.range (numCols inp)).map fun j =>
        if colNorm (initialMatrix inp) j = 0 then 0
        else ((initialMatrix inp).getD i []).getD j 0 / colNorm (initialMatrix inp) j := by
  unfold normalizedMatrix
  rw [List.getD_eq_getElem _ _ (by simpa using hi)]
  simp only [List.getElem_map]
  rw [List.getD_eq_getElem _ _ hi]

theorem entry_normalizedMatrix (inp : TopsisInput) {i j : ℕ}
    (hi : i < (initialMatrix inp).length) (hj : j < numCols inp) :
    entry (normalizedMatrix inp) i j =
      if colNorm (initialMatrix inp) j = 0 then 0
      else entry (initialMatrix inp) i j / colNorm (initialMatrix inp) j := by
  unfold entry
  rw [row_normalizedMatrix inp hi, List.getD_eq_getElem _ _ (by simpa using hj)]
  simp only [List.getElem_map, List.getElem_range]

theorem row_length_normalizedMatrix (inp : TopsisInput) {i : ℕ}
    (hi : i < (initialMatrix inp).length) :
    ((normalizedMatrix inp).getD i []).length = numCols inp := by
  rw [row_normalizedMatrix inp hi]
  simp

theorem row_weightedMatrix (inp : TopsisInput) {i : ℕ}
    (hi : i < (initialMatrix inp).length) :
    (weightedMatrix inp).getD i [] =
      (List.range (numCols inp)).map fun j =>
        ((normalizedMatrix inp).getD i []).getD j 0 * weightAt inp j := by
  unfold weightedMatrix
  rw [List.getD_eq_getElem _ _ (by simpa [length_normalizedMatrix] using hi)]
  simp only [List.getElem_map]
  rw [List.getD_eq_getElem _ _ (by simpa [length_normalizedMatrix] using hi)]

theorem entry_weightedMatrix (inp : TopsisInput) {i j : ℕ}
    (hi : i < (initialMatrix inp).length) (hj : j < numCols inp) :
    entry (weightedMatrix inp) i j =
      entry (normalizedMatrix inp) i j * weightAt inp j := by
  unfold entry
  rw [row_weightedMatrix inp hi, List.getD_eq_getElem _ _ (by simpa using hj)]
  simp only [List.getElem_map, List.getElem_range]

theorem length_column (M : List (List ℝ)) (j : ℕ) : (column M j).length = M.length :=
  List.length_map _ _

theorem entry_mem_column (M : List (List ℝ)) {i : ℕ} (j : ℕ) (hi : i < M.length) :
    entry M i j ∈ column M j := by
  unfold entry column
  rw [List.getD_eq_getElem _ _ hi]
  exact List.mem_map_of_mem _ (List.getElem_mem hi)

theorem le_foldl_max (l : List ℝ) (a : ℝ) :
    a ≤ l.foldl max a ∧ ∀ x ∈ l, x ≤ l.foldl max a := by
  induction l generalizing a with
  | nil => simp
  | cons y ys ih =>
    refine ⟨le_trans (le_max_left a y) (ih (max a y)).1, ?_⟩
    intro x hx
    rcases List.mem_cons.mp hx with rfl | hx
    · exact le_trans (le_max_right a x) (ih (max a x)).1
    · exact (ih (max a y)).2 x hx

theorem foldl_min_le (l : List ℝ) (a : ℝ) :
    l.foldl min a ≤ a ∧ ∀ x ∈ l, l.foldl min a ≤ x := by
  induction l generalizing a with
  | nil => simp
  | cons y ys ih =>
    refine ⟨le_trans (ih (min a y)).1 (min_le_left a y), ?_⟩
    intro x hx
    rcases List.mem_cons.mp hx with rfl | hx
    · exact le_trans (ih (min a x)).1 (min_le_right a x)
    · exact (ih (min a y)).2 x hx

theorem le_listMax {l : List ℝ} {x : ℝ} (hx : x ∈ l) : x ≤ listMax l := by
  cases l with
  | nil => exact absurd hx (List.not_mem_nil x)
  | cons a as =>
    rcases List.mem_cons.mp hx with rfl | hx
    · exact (le_foldl_max as x).1
    · exact (le_foldl_max as a).2 x hx

theorem listMin_le {l : List ℝ} {x : ℝ} (hx : x ∈ l) : listMin l ≤ x := by
  cases l with
  | nil => exact absurd hx (List.not_mem_nil x)
  | cons a as =>
    rcases List.mem_cons.mp hx with rfl | hx
    · exact (foldl_min_le as x).1
    · exact (foldl_min_le as a).2 x hx

theorem foldl_max_eq_or_mem (l : List ℝ) (a : ℝ) :
    l.foldl max a = a ∨ l.foldl max a ∈ l := by
  induction l generalizing a with
  | nil => exact Or.inl rfl
  | cons y ys ih =>
    rcases ih (max a y) with h | h
    · rcases max_choice a y with hm | hm
      · exact Or.inl (by rw [List.foldl_cons, h, hm])
      · exact Or.inr (by rw [List.foldl_cons, h, hm]; exact List.mem_cons_self y ys)
    · exact Or.inr (List.mem_cons_of_mem y h)

theorem foldl_min_eq_or_mem (l : List ℝ) (a : ℝ) :
    l.foldl min a = a ∨ l.foldl min a ∈ l := by
  induction l generalizing a with
  | nil => exact Or.inl rfl
  | cons y ys ih =>
    rcases ih (min a y) with h | h
    · rcases min_choice a y with hm | hm
      · exact Or.inl (by rw [List.foldl_cons, h, hm])
      · exact Or.inr (by rw [List.foldl_cons, h, hm]; exact List.mem_cons_self y ys)
    · exact Or.inr (List.mem_cons_of_mem y h)

theorem listMax_mem {l : List ℝ} (h : l ≠ []) : listMax l ∈ l := by
  cases l with
  | nil => exact absurd rfl h
  | cons a as =>
    rcases foldl_max_eq_or_mem as a with h' | h'
    · simp only [listMax]; rw [h']; exact List.mem_cons_self a as
    · exact List.mem_cons_of_mem a h'

theorem listMin_mem {l : List ℝ} (h : l ≠ []) : listMin l ∈ l := by
  cases l with
  | nil => exact absurd rfl h
  | cons a as =>
    rcases foldl_min_eq_or_mem as a with h' | h'
    · simp only [listMin]; rw [h']; exact List.mem_cons_self a as
    · exact List.mem_cons_of_mem a h'

theorem getD_range_map {α : Type _} (g : ℕ → α) (d : α) {n j : ℕ} (hj : j < n) :
    ((List.range n).map g).getD j d = g j := by
  rw [List.getD_eq_getElem _ _ (by simpa using hj)]
  simp

theorem benefitFlagAt_eq (inp : TopsisInput) {j : ℕ} {k : CriterionKey}
    (hk : inp.selectedCriteriaKeys[j]? = some k) :
    benefitFlagAt inp j = benefitFlag inp.allCriteriaDefinition k := by
  unfold benefitFlagAt
  rw [hk]

/-! ## The claims -/

/-- C6: if either the selected-materials list or the selected-criterion-keys
list is empty, the engine returns the empty result list (and raises no
error: it is a total function). -/
theorem claim6_empty_selection (inp : TopsisInput)
    (h : inp.selectedMaterialsData = [] ∨ inp.selectedCriteriaKeys = []) :
    runTopsisCalculation inp = [] := by
  rcases h with h | h <;> simp [runTopsisCalculation, h]

/-- C1: every result of a run on a non-empty input carries the score of its
row `i`: `none` (the NaN sentinel) exactly when `D+ + D- = 0`, and otherwise
the value `D- / (D+ + D-)`, which lies in `[0, 1]`; no error is raised (the
engine is a total function). -/
theorem claim1_score_formula_and_range (inp : TopsisInput)
    (hm : inp.selectedMaterialsData ≠ []) (hk : inp.selectedCriteriaKeys ≠ []) :
    ∀ r ∈ runTopsisCalculation inp,
      ∃ i < inp.selectedMaterialsData.length,
        r.score = scores inp i ∧
        (distanceToIdeal inp i + distanceToAntiIdeal inp i = 0 → r.score = none) ∧
        (distanceToIdeal inp i + distanceToAntiIdeal inp i ≠ 0 →
          r.score = some (distanceToAntiIdeal inp i /
            (distanceToIdeal inp i + distanceToAntiIdeal inp i))) ∧
        (∀ s, r.score = some s → 0 ≤ s ∧ s ≤ 1) := by
  intro r hr
  have hr' : r ∈ results inp := (run_perm_results inp hm hk).mem_iff.mp hr
  rcases mem_results inp hr' with ⟨i, hi, hscore, _⟩
  refine ⟨i, hi, hscore, ?_, ?_, ?_⟩
  · intro h0; rw [hscore]; exact scores_eq_none inp i h0
  · intro h0; rw [hscore]; exact scores_eq_some inp i h0
  · intro s hs; exact scores_mem_unitInterval inp i s (hscore ▸ hs)

/-- C2: the returned list is sorted descending by score (`scoreKeyGE`), and
a NaN (`none`) score never appears before a numeric score. -/
theorem claim2_sorted_descending_nan_last (inp : TopsisInput)
    (hm : inp.selectedMaterialsData ≠ []) (hk : inp.selectedCriteriaKeys ≠ []) :
    List.Pairwise (fun a b : TopsisFullResults => scoreKeyGE a.score b.score)
      (runTopsisCalculation inp) ∧
    List.Pairwise (fun a b : TopsisFullResults => a.score = none → b.score = none)
      (runTopsisCalculation inp) := by
  have hs : List.Sorted resultGE (runTopsisCalculation inp) := by
    rw [run_eq_sorted inp hm hk]
    exact List.sorted_insertionSort resultGE (results inp)
  refine ⟨hs, hs.imp ?_⟩
  intro a b hab ha
  unfold resultGE at hab
  rw [ha] at hab
  cases hb : b.score with
  | none => rfl
  | some y => rw [hb] at hab; exact absurd hab (by simp [scoreKeyGE])

/-- C7: on a non-empty input the result list has one entry per input
material, its multiset of names is exactly the input's multiset of names,
and under the spec's uniqueness invariant each input name appears exactly
once. -/
theorem claim7_one_result_per_material (inp : TopsisInput)
    (hm : inp.selectedMaterialsData ≠ []) (hk : inp.selectedCriteriaKeys ≠ []) :
    (runTopsisCalculation inp).length = inp.selectedMaterialsData.length ∧
    ((runTopsisCalculation inp).map (fun r => r.name)).Perm
      (inp.selectedMaterialsData.map Material.name) ∧
    ((inp.selectedMaterialsData.map Material.name).Nodup →
      ∀ m ∈ inp.selectedMaterialsData,
        ((runTopsisCalculation inp).map (fun r => r.name)).count m.name = 1) := by
  have hperm := run_perm_results inp hm hk
  have hnames : ((runTopsisCalculation inp).map (fun r => r.name)).Perm
      (inp.selectedMaterialsData.map Material.name) := by
    rw [← results_map_name inp]
    exact hperm.map _
  refine ⟨?_, hnames, ?_⟩
  · rw [hperm.length_eq, length_results]
  · intro hnodup m hmem
    rw [hnames.count_eq]
    exact List.count_eq_one_of_mem hnodup (List.mem_map_of_mem Material.name hmem)

/-- C4: for a selected criterion key found in the criteria catalog, a
benefit criterion gets ideal = column max and anti-ideal = column min of the
weighted matrix, and a cost criterion gets the pair swapped. -/
theorem claim4_ideal_antiideal_polarity (inp : TopsisInput)
    (hm : inp.selectedMaterialsData ≠ []) (hk : inp.selectedCriteriaKeys ≠ []) :
    ∀ j < numCols inp, ∀ k, inp.selectedCriteriaKeys[j]? = some k →
      ∀ c, criteriaMapGet inp.allCriteriaDefinition k = some c →
        (c.isBenefit = true →
          idealSolution inp j = listMax (column (weightedMatrix inp) j) ∧
          antiIdealSolution inp j = listMin (column (weightedMatrix inp) j)) ∧
        (c.isBenefit = false →
          idealSolution inp j = listMin (column (weightedMatrix inp) j) ∧
          antiIdealSolution inp j = listMax (column (weightedMatrix inp) j)) := by
  intro j _ k hkj c hc
  have hflag : benefitFlagAt inp j = c.isBenefit := by
    rw [benefitFlagAt_eq inp hkj]
    unfold benefitFlag
    rw [hc]
  constructor
  · intro hb
    unfold idealSolution antiIdealSolution
    rw [hflag, hb]
    simp
  · intro hb
    unfold idealSolution antiIdealSolution
    rw [hflag, hb]
    simp

/-- C10: a selected criterion key with no entry in the criteria catalog is
treated as cost-type: ideal = column min and anti-ideal = column max of the
weighted matrix; the input is not rejected (the run still yields one result
per material). -/
theorem claim10_unknown_key_treated_as_cost (inp : TopsisInput)
    (hm : inp.selectedMaterialsData ≠ []) (hk : inp.selectedCriteriaKeys ≠ []) :
    (∀ j < numCols inp, ∀ k, inp.selectedCriteriaKeys[j]? = some k →
      criteriaMapGet inp.allCriteriaDefinition k = none →
        idealSolution inp j = listMin (column (weightedMatrix inp) j) ∧
        antiIdealSolution inp j = listMax (column (weightedMatrix inp) j)) ∧
    (runTopsisCalculation inp).length = inp.selectedMaterialsData.length := by
  constructor
  · intro j _ k hkj hc
    have hflag : benefitFlagAt inp j = false := by
      rw [benefitFlagAt_eq inp hkj]
      unfold benefitFlag
      rw [hc]
    unfold idealSolution antiIdealSolution
    rw [hflag]
    simp
  · rw [(run_perm_results inp hm hk).length_eq, length_results]

/-- C8: the initial matrix reads the cost map (missing entry defaulting
to 0) in the synthetic `cout` column and the material's static attribute in
every other column, and the weighted matrix multiplies the normalized entry
by the column key's weight (missing weight defaulting to 0). -/
theorem claim8_matrix_cell_values (inp : TopsisInput)
    (hm : inp.selectedMaterialsData ≠ []) (hk : inp.selectedCriteriaKeys ≠ []) :
    ∀ i < inp.selectedMaterialsData.length, ∀ j < inp.selectedCriteriaKeys.length,
      (inp.selectedCriteriaKeys[j]? = some CriterionKey.cout →
        entry (initialMatrix inp) i j =
          (inp.costs (inp.selectedMaterialsData.getD i default).name).getD 0) ∧
      (∀ k, inp.selectedCriteriaKeys[j]? = some k → k ≠ CriterionKey.cout →
        entry (initialMatrix inp) i j =
          staticAttribute (inp.selectedMaterialsData.getD i default) k) ∧
      entry (weightedMatrix inp) i j =
        entry (normalizedMatrix inp) i j * weightAt inp j ∧
      (∀ k, inp.selectedCriteriaKeys[j]? = some k →
        weightAt inp j = (inp.weights k).getD 0) := by
  intro i hi j hj
  have hkey : ∀ k, inp.selectedCriteriaKeys[j]? = some k →
      inp.selectedCriteriaKeys.getD j CriterionKey.cout = k := by
    intro k hkj
    rw [List.getD_eq_getElem _ _ hj]
    rw [List.getElem?_eq_getElem hj] at hkj
    exact Option.some_inj.mp hkj
  have hi' : i < (initialMatrix inp).length := by
    rw [length_initialMatrix]; exact hi
  have hj' : j < numCols inp := by
    rw [numCols_eq inp hm]; exact hj
  refine ⟨?_, ?_, ?_, ?_⟩
  · intro hkj
    rw [entry_initialMatrix inp hi hj, hkey _ hkj]
    rfl
  · intro k hkj hkne
    rw [entry_initialMatrix inp hi hj, hkey _ hkj]
    cases k <;> first | rfl | exact absurd rfl hkne
  · exact entry_weightedMatrix inp hi' hj'
  · intro k hkj
    unfold weightAt
    rw [hkj]

/-- C3: each normalized column is the initial column divided by its L2 norm
and then has L2 norm 1, except that a column of raw norm 0 is set entirely
to 0 (no division by zero). -/
theorem claim3_column_normalization (inp : TopsisInput)
    (hm : inp.selectedMaterialsData ≠ []) (hk : inp.selectedCriteriaKeys ≠ []) :
    ∀ j < numCols inp,
      (colNorm (initialMatrix inp) j = 0 →
        ∀ i < (initialMatrix inp).length, entry (normalizedMatrix inp) i j = 0) ∧
      (colNorm (initialMatrix inp) j ≠ 0 →
        (∀ i < (initialMatrix inp).length,
          entry (normalizedMatrix inp) i j =
            entry (initialMatrix inp) i j / colNorm (initialMatrix inp) j) ∧
        colNorm (normalizedMatrix inp) j = 1) := by
  intro j hj
  constructor
  · intro h0 i hi
    rw [entry_normalizedMatrix inp hi hj, if_pos h0]
  · intro h0
    have hS : 0 < sumOfSquares (initialMatrix inp) j := by
      rcases lt_or_eq_of_le (sumOfSquares_nonneg (initialMatrix inp) j) with h | h
      · exact h
      · exact absurd (by rw [colNorm, ← h, Real.sqrt_zero]) h0
    refine ⟨fun i hi => by rw [entry_normalizedMatrix inp hi hj, if_neg h0], ?_⟩
    have hc2 : colNorm (initialMatrix inp) j ^ 2 = sumOfSquares (initialMatrix inp) j :=
      Real.sq_sqrt (sumOfSquares_nonneg (initialMatrix inp) j)
    have hsum : sumOfSquares (normalizedMatrix inp) j = 1 := by
      unfold sumOfSquares normalizedMatrix
      rw [List.map_map]
      have hfun : ((fun row : List ℝ => row.getD j 0 ^ 2) ∘ fun row =>
          (List.range (numCols inp)).map fun j' =>
            if colNorm (initialMatrix inp) j' = 0 then 0
            else row.getD j' 0 / colNorm (initialMatrix inp) j') =
          fun row : List ℝ =>
            row.getD j 0 ^ 2 * ((colNorm (initialMatrix inp) j ^ 2)⁻¹) := by
        funext row
        simp only [Function.comp, getD_range_map _ _ hj, if_neg h0, div_eq_mul_inv,
          mul_pow, inv_pow]
      rw [hfun, List.sum_map_mul_right, hc2]
      exact mul_inv_cancel₀ (ne_of_gt hS)
    rw [colNorm, hsum, Real.sqrt_one]

/-! ## Scenario B: concrete evaluation of the whole pipeline -/

theorem inpB_mats_ne : inpB.selectedMaterialsData ≠ [] := by simp [inpB]

theorem inpB_keys_ne : inpB.selectedCriteriaKeys ≠ [] := by simp [inpB]

theorem inpB_initialMatrix : initialMatrix inpB = [[3], [4]] := rfl

theorem inpB_numCols : numCols inpB = 1 := rfl

theorem inpB_sumOfSquares : sumOfSquares (initialMatrix inpB) 0 = 25 := by
  rw [inpB_initialMatrix]
  norm_num [sumOfSquares, List.getD_cons_zero]

theorem inpB_colNorm : colNorm (initialMatrix inpB) 0 = 5 := by
  rw [colNorm, inpB_sumOfSquares, show (25 : ℝ) = 5 ^ 2 by norm_num,
    Real.sqrt_sq (by norm_num : (0:ℝ) ≤ 5)]

theorem inpB_normalizedMatrix : normalizedMatrix inpB = [[3/5], [4/5]] := by
  have hc : colNorm [[(3:ℝ)], [(4:ℝ)]] 0 = 5 := by
    rw [← inpB_initialMatrix]
    exact inpB_colNorm
  unfold normalizedMatrix
  rw [inpB_numCols, inpB_initialMatrix, (show List.range 1 = [0] from rfl)]
  simp only [List.map_cons, List.map_nil, List.getD_cons_zero]
  rw [hc]
  norm_num

theorem inpB_weightAt : weightAt inpB 0 = 1 := rfl

theorem inpB_weightedMatrix : weightedMatrix inpB = [[3/5], [4/5]] := by
  unfold weightedMatrix
  rw [inpB_numCols, inpB_normalizedMatrix, (show List.range 1 = [0] from rfl)]
  simp only [List.map_cons, List.map_nil, List.getD_cons_zero]
  rw [inpB_weightAt]
  norm_num

theorem inpB_column : column (weightedMatrix inpB) 0 = [3/5, 4/5] := by
  rw [column, inpB_weightedMatrix]
  rfl

theorem inpB_benefitFlag : benefitFlagAt inpB 0 = true := rfl

theorem inpB_ideal : idealSolution inpB 0 = 4/5 := by
  unfold idealSolution
  rw [inpB_benefitFlag, inpB_column]
  simp only [if_true]
  rw [show listMax [(3:ℝ)/5, 4/5] = max (3/5) (4/5) from rfl,
    max_eq_right (by norm_num : (3:ℝ)/5 ≤ 4/5)]

theorem inpB_antiIdeal : antiIdealSolution inpB 0 = 3/5 := by
  unfold antiIdealSolution
  rw [inpB_benefitFlag, inpB_column]
  simp only [if_true]
  rw [show listMin [(3:ℝ)/5, 4/5] = min (3/5) (4/5) from rfl,
    min_eq_left (by norm_num : (3:ℝ)/5 ≤ 4/5)]

theorem inpB_entryW00 : entry (weightedMatrix inpB) 0 0 = 3/5 := by
  rw [entry, inpB_weightedMatrix]
  rfl

theorem inpB_entryW10 : entry (weightedMatrix inpB) 1 0 = 4/5 := by
  rw [entry, inpB_weightedMatrix]
  rfl

theorem inpB_dPlus0 : distanceToIdeal inpB 0 = 1/5 := by
  unfold distanceToIdeal
  rw [inpB_numCols, (show List.range 1 = [0] from rfl)]
  simp only [List.map_cons, List.map_nil, List.sum_cons, List.sum_nil]
  rw [inpB_entryW00, inpB_ideal,
    show ((3:ℝ)/5 - 4/5) ^ 2 + 0 = (1/5) ^ 2 by norm_num,
    Real.sqrt_sq (by norm_num : (0:ℝ) ≤ 1/5)]

theorem inpB_dMinus0 : distanceToAntiIdeal inpB 0 = 0 := by
  unfold distanceToAntiIdeal
  rw [inpB_numCols, (show List.range 1 = [0] from rfl)]
  simp only [List.map_cons, List.map_nil, List.sum_cons, List.sum_nil]
  rw [inpB_entryW00, inpB_antiIdeal,
    show ((3:ℝ)/5 - 3/5) ^ 2 + 0 = 0 by norm_num, Real.sqrt_zero]

theorem inpB_dPlus1 : distanceToIdeal inpB 1 = 0 := by
  unfold distanceToIdeal
  rw [inpB_numCols, (show List.range 1 = [0] from rfl)]
  simp only [List.map_cons, List.map_nil, List.sum_cons, List.sum_nil]
  rw [inpB_entryW10, inpB_ideal,
    show ((4:ℝ)/5 - 4/5) ^ 2 + 0 = 0 by norm_num, Real.sqrt_zero]

theorem inpB_dMinus1 : distanceToAntiIdeal inpB 1 = 1/5 := by
  unfold distanceToAntiIdeal
  rw [inpB_numCols, (show List.range 1 = [0] from rfl)]
  simp only [List.map_cons, List.map_nil, List.sum_cons, List.sum_nil]
  rw [inpB_entryW10, inpB_antiIdeal,
    show ((4:ℝ)/5 - 3/5) ^ 2 + 0 = (1/5) ^ 2 by norm_num,
    Real.sqrt_sq (by norm_num : (0:ℝ) ≤ 1/5)]

theorem inpB_scores0 : scores inpB 0 = some 0 := by
  unfold scores
  rw [inpB_dPlus0, inpB_dMinus0, if_neg (by norm_num : ¬((1:ℝ)/5 + 0 = 0))]
  norm_num

theorem inpB_scores1 : scores inpB 1 = some 1 := by
  unfold scores
  rw [inpB_dPlus1, inpB_dMinus1, if_neg (by norm_num : ¬((0:ℝ) + 1/5 = 0))]
  norm_num

theorem inpB_run_names :
    (runTopsisCalculation inpB).map (fun r => r.name) = ["M2", "M1"] := by
  rw [run_eq_sorted inpB inpB_mats_ne inpB_keys_ne, results,
    show List.range inpB.selectedMaterialsData.length = [0, 1] from rfl]
  simp only [List.map_cons, List.map_nil, List.insertionSort, List.orderedInsert]
  have hn : ¬ resultGE (resultAt inpB 0) (resultAt inpB 1) := by
    unfold resultGE
    rw [show (resultAt inpB 0).score = scores inpB 0 from rfl,
      show (resultAt inpB 1).score = scores inpB 1 from rfl, inpB_scores0, inpB_scores1]
    simp only [scoreKeyGE]
    norm_num
  rw [if_neg hn]
  simp only [List.orderedInsert, List.map_cons, List.map_nil]
  rfl

/-- C9: Scenario B — 2 materials with values 3 and 4 on one benefit criterion
of weight 1: column norm 5, normalized and weighted columns `[3/5, 4/5]`,
ideal `4/5`, anti-ideal `3/5`, scores 1 and 0, and the second material is
ranked before the first. -/
theorem claim9_scenario_b :
    colNorm (initialMatrix inpB) 0 = 5 ∧
    normalizedMatrix inpB = [[3/5], [4/5]] ∧
    weightedMatrix inpB = [[3/5], [4/5]] ∧
    idealSolution inpB 0 = 4/5 ∧
    antiIdealSolution inpB 0 = 3/5 ∧
    scores inpB 1 = some 1 ∧
    scores inpB 0 = some 0 ∧
    (runTopsisCalculation inpB).map (fun r => r.name) = ["M2", "M1"] :=
  ⟨inpB_colNorm, inpB_normalizedMatrix, inpB_weightedMatrix, inpB_ideal,
    inpB_antiIdeal, inpB_scores1, inpB_scores0, inpB_run_names⟩

/-! ## Witnesses -/

theorem inpA_mats_ne : inpA.selectedMaterialsData ≠ [] := by simp [inpA]

theorem inpA_keys_ne : inpA.selectedCriteriaKeys ≠ [] := by simp [inpA]

theorem unk_mats_ne : unkInput.selectedMaterialsData ≠ [] := by simp [unkInput]

theorem unk_keys_ne : unkInput.selectedCriteriaKeys ≠ [] := by simp [unkInput]

theorem claim1_score_formula_and_range_witness :
    inpB.selectedMaterialsData ≠ [] ∧ inpB.selectedCriteriaKeys ≠ [] ∧
    ∀ r ∈ runTopsisCalculation inpB,
      ∃ i < inpB.selectedMaterialsData.length,
        r.score = scores inpB i ∧
        (distanceToIdeal inpB i + distanceToAntiIdeal inpB i = 0 → r.score = none) ∧
        (distanceToIdeal inpB i + distanceToAntiIdeal inpB i ≠ 0 →
          r.score = some (distanceToAntiIdeal inpB i /
            (distanceToIdeal inpB i + distanceToAntiIdeal inpB i))) ∧
        (∀ s, r.score = some s → 0 ≤ s ∧ s ≤ 1) :=
  ⟨inpB_mats_ne, inpB_keys_ne,
    claim1_score_formula_and_range inpB inpB_mats_ne inpB_keys_ne⟩

theorem claim2_sorted_descending_nan_last_witness :
    inpA.selectedMaterialsData ≠ [] ∧ inpA.selectedCriteriaKeys ≠ [] ∧
    (List.Pairwise (fun a b : TopsisFullResults => scoreKeyGE a.score b.score)
      (runTopsisCalculation inpA) ∧
    List.Pairwise (fun a b : TopsisFullResults => a.score = none → b.score = none)
      (runTopsisCalculation inpA)) :=
  ⟨inpA_mats_ne, inpA_keys_ne,
    claim2_sorted_descending_nan_last inpA inpA_mats_ne inpA_keys_ne⟩

theorem claim3_column_normalization_witness :
    0 < numCols inpB ∧ colNorm (initialMatrix inpB) 0 ≠ 0 ∧
    ((∀ i < (initialMatrix inpB).length,
        entry (normalizedMatrix inpB) i 0 =
          entry (initialMatrix inpB) i 0 / colNorm (initialMatrix inpB) 0) ∧
      colNorm (normalizedMatrix inpB) 0 = 1) :=
  ⟨by rw [inpB_numCols]; norm_num,
   by rw [inpB_colNorm]; norm_num,
   (claim3_column_normalization inpB inpB_mats_ne inpB_keys_ne 0
      (by rw [inpB_numCols]; norm_num)).2 (by rw [inpB_colNorm]; norm_num)⟩

theorem claim4_ideal_antiideal_polarity_witness :
    0 < numCols inpB ∧
    inpB.selectedCriteriaKeys[0]? = some CriterionKey.temp ∧
    criteriaMapGet inpB.allCriteriaDefinition CriterionKey.temp =
      some { key := .temp, label := "Température maximale (°C)", isBenefit := true } ∧
    (idealSolution inpB 0 = listMax (column (weightedMatrix inpB) 0) ∧
      antiIdealSolution inpB 0 = listMin (column (weightedMatrix inpB) 0)) :=
  ⟨by rw [inpB_numCols]; norm_num, rfl, rfl,
    (claim4_ideal_antiideal_polarity inpB inpB_mats_ne inpB_keys_ne 0
      (by rw [inpB_numCols]; norm_num) CriterionKey.temp rfl
      { key := .temp, label := "Température maximale (°C)", isBenefit := true }
      rfl).1 rfl⟩

theorem claim6_empty_selection_witness :
    emptyInput.selectedMaterialsData = [] ∧ runTopsisCalculation emptyInput = [] :=
  ⟨rfl, claim6_empty_selection emptyInput (Or.inl rfl)⟩

theorem claim7_one_result_per_material_witness :
    inpB.selectedMaterialsData ≠ [] ∧ inpB.selectedCriteriaKeys ≠ [] ∧
    ((runTopsisCalculation inpB).length = inpB.selectedMaterialsData.length ∧
    ((runTopsisCalculation inpB).map (fun r => r.name)).Perm
      (inpB.selectedMaterialsData.map Material.name) ∧
    ((inpB.selectedMaterialsData.map Material.name).Nodup →
      ∀ m ∈ inpB.selectedMaterialsData,
        ((runTopsisCalculation inpB).map (fun r => r.name)).count m.name = 1)) :=
  ⟨inpB_mats_ne, inpB_keys_ne,
    claim7_one_result_per_material inpB inpB_mats_ne inpB_keys_ne⟩

theorem claim8_matrix_cell_values_witness :
    unkInput.selectedMaterialsData ≠ [] ∧ unkInput.selectedCriteriaKeys ≠ [] ∧
    0 < unkInput.selectedMaterialsData.length ∧
    0 < unkInput.selectedCriteriaKeys.length ∧
    unkInput.selectedCriteriaKeys[0]? = some CriterionKey.cout ∧
    ((unkInput.selectedCriteriaKeys[0]? = some CriterionKey.cout →
        entry (initialMatrix unkInput) 0 0 =
          (unkInput.costs (unkInput.selectedMaterialsData.getD 0 default).name).getD 0) ∧
      (∀ k, unkInput.selectedCriteriaKeys[0]? = some k → k ≠ CriterionKey.cout →
        entry (initialMatrix unkInput) 0 0 =
          staticAttribute (unkInput.selectedMaterialsData.getD 0 default) k) ∧
      entry (weightedMatrix unkInput) 0 0 =
        entry (normalizedMatrix unkInput) 0 0 * weightAt unkInput 0 ∧
      (∀ k, unkInput.selectedCriteriaKeys[0]? = some k →
        weightAt unkInput 0 = (unkInput.weights k).getD 0)) :=
  ⟨unk_mats_ne, unk_keys_ne, by simp [unkInput], by simp [unkInput], rfl,
    claim8_matrix_cell_values unkInput unk_mats_ne unk_keys_ne 0
      (by simp [unkInput]) 0 (by simp [unkInput])⟩

theorem claim10_unknown_key_treated_as_cost_witness :
    unkInput.selectedMaterialsData ≠ [] ∧ unkInput.selectedCriteriaKeys ≠ [] ∧
    0 < numCols unkInput ∧
    unkInput.selectedCriteriaKeys[0]? = some CriterionKey.cout ∧
    criteriaMapGet unkInput.allCriteriaDefinition CriterionKey.cout = none ∧
    (idealSolution unkInput 0 = listMin (column (weightedMatrix unkInput) 0) ∧
      antiIdealSolution unkInput 0 = listMax (column (weightedMatrix unkInput) 0)) :=
  ⟨unk_mats_ne, unk_keys_ne,
    by rw [numCols_eq unkInput unk_mats_ne]; simp [unkInput], rfl, rfl,
    (claim10_unknown_key_treated_as_cost unkInput unk_mats_ne unk_keys_ne).1 0
      (by rw [numCols_eq unkInput unk_mats_ne]; simp [unkInput])
      CriterionKey.cout rfl rfl⟩

/-! ## Monotonicity counterexample: concrete evaluation

Before the increase the raw matrix is `[[-2, 1], [0, 0], [1, -1]]` on two
benefit criteria of weight 1; after it, material A's second value grows
from 1 to 3. Material A scores strictly above material C before, and
strictly below it after, although C is unchanged. -/

theorem sqrt5_ne : Real.sqrt 5 ≠ 0 := ne_of_gt (Real.sqrt_pos.mpr (by norm_num))

theorem sqrt2_ne : Real.sqrt 2 ≠ 0 := ne_of_gt (Real.sqrt_pos.mpr (by norm_num))

theorem sqrt10_ne : Real.sqrt 10 ≠ 0 := ne_of_gt (Real.sqrt_pos.mpr (by norm_num))

theorem cx_initialMatrix : initialMatrix cxInput = [[-2, 1], [0, 0], [1, -1]] := rfl

theorem cx_S0 : sumOfSquares (initialMatrix cxInput) 0 = 5 := by
  rw [cx_initialMatrix]
  norm_num [sumOfSquares, List.getD_cons_zero]

theorem cx_S1 : sumOfSquares (initialMatrix cxInput) 1 = 2 := by
  rw [cx_initialMatrix]
  norm_num [sumOfSquares, List.getD_cons_zero, List.getD_cons_succ]

theorem cx_norm0 : colNorm (initialMatrix cxInput) 0 = Real.sqrt 5 := by
  rw [colNorm, cx_S0]

theorem cx_norm1 : colNorm (initialMatrix cxInput) 1 = Real.sqrt 2 := by
  rw [colNorm, cx_S1]

theorem cx_normalizedMatrix : normalizedMatrix cxInput =
    [[-2/Real.sqrt 5, 1/Real.sqrt 2], [0, 0], [1/Real.sqrt 5, -1/Real.sqrt 2]] := by
  have h0 : colNorm [[(-2:ℝ), 1], [0, 0], [1, -1]] 0 = Real.sqrt 5 := by
    rw [← cx_initialMatrix]; exact cx_norm0
  have h1 : colNorm [[(-2:ℝ), 1], [0, 0], [1, -1]] 1 = Real.sqrt 2 := by
    rw [← cx_initialMatrix]; exact cx_norm1
  unfold normalizedMatrix
  rw [show List.range (numCols cxInput) = [0, 1] from rfl, cx_initialMatrix]
  simp only [List.map_cons, List.map_nil, List.getD_cons_zero, List.getD_cons_succ]
  rw [h0, h1]
  simp only [if_neg sqrt5_ne, if_neg sqrt2_ne, zero_div]

theorem cx_weightedMatrix : weightedMatrix cxInput =
    [[-2/Real.sqrt 5, 1/Real.sqrt 2], [0, 0], [1/Real.sqrt 5, -1/Real.sqrt 2]] := by
  unfold weightedMatrix
  rw [show List.range (numCols cxInput) = [0, 1] from rfl, cx_normalizedMatrix]
  simp only [List.map_cons, List.map_nil, List.getD_cons_zero, List.getD_cons_succ]
  rw [show weightAt cxInput 0 = 1 from rfl, show weightAt cxInput 1 = 1 from rfl]
  norm_num

theorem cx_col0 : column (weightedMatrix cxInput) 0 =
    [-2/Real.sqrt 5, 0, 1/Real.sqrt 5] := by
  rw [column, cx_weightedMatrix]
  rfl

theorem cx_col1 : column (weightedMatrix cxInput) 1 =
    [1/Real.sqrt 2, 0, -1/Real.sqrt 2] := by
  rw [column, cx_weightedMatrix]
  rfl

theorem cx_ideal0 : idealSolution cxInput 0 = 1/Real.sqrt 5 := by
  unfold idealSolution
  rw [show benefitFlagAt cxInput 0 = true from rfl, cx_col0]
  simp only [if_true]
  show max (max (-2/Real.sqrt 5) 0) (1/Real.sqrt 5) = 1/Real.sqrt 5
  have ha : -2/Real.sqrt 5 ≤ 0 := by
    rw [neg_div]; exact neg_nonpos.mpr (by positivity)
  rw [max_eq_right ha, max_eq_right (by positivity : (0:ℝ) ≤ 1/Real.sqrt 5)]

theorem cx_anti0 : antiIdealSolution cxInput 0 = -2/Real.sqrt 5 := by
  unfold antiIdealSolution
  rw [show benefitFlagAt cxInput 0 = true from rfl, cx_col0]
  simp only [if_true]
  show min (min (-2/Real.sqrt 5) 0) (1/Real.sqrt 5) = -2/Real.sqrt 5
  have ha : -2/Real.sqrt 5 ≤ 0 := by
    rw [neg_div]; exact neg_nonpos.mpr (by positivity)
  rw [min_eq_left ha, min_eq_left (le_trans ha (by positivity))]

theorem cx_ideal1 : idealSolution cxInput 1 = 1/Real.sqrt 2 := by
  unfold idealSolution
  rw [show benefitFlagAt cxInput 1 = true from rfl, cx_col1]
  simp only [if_true]
  show max (max (1/Real.sqrt 2) 0) (-1/Real.sqrt 2) = 1/Real.sqrt 2
  have hb : -1/Real.sqrt 2 ≤ 0 := by
    rw [neg_div]; exact neg_nonpos.mpr (by positivity)
  rw [max_eq_left (by positivity : (0:ℝ) ≤ 1/Real.sqrt 2),
    max_eq_left (le_trans hb (by positivity))]

theorem cx_anti1 : antiIdealSolution cxInput 1 = -1/Real.sqrt 2 := by
  unfold antiIdealSolution
  rw [show benefitFlagAt cxInput 1 = true from rfl, cx_col1]
  simp only [if_true]
  show min (min (1/Real.sqrt 2) 0) (-1/Real.sqrt 2) = -1/Real.sqrt 2
  have hb : -1/Real.sqrt 2 ≤ 0 := by
    rw [neg_div]; exact neg_nonpos.mpr (by positivity)
  rw [min_eq_right (by positivity : (0:ℝ) ≤ 1/Real.sqrt 2), min_eq_right hb]

theorem cx_dPlus0 : distanceToIdeal cxInput 0 = Real.sqrt (9/5) := by
  unfold distanceToIdeal
  rw [show List.range (numCols cxInput) = [0, 1] from rfl]
  simp only [List.map_cons, List.map_nil, List.sum_cons, List.sum_nil]
  rw [show entry (weightedMatrix cxInput) 0 0 = -2/Real.sqrt 5 by
      rw [entry, cx_weightedMatrix]; rfl,
    show entry (weightedMatrix cxInput) 0 1 = 1/Real.sqrt 2 by
      rw [entry, cx_weightedMatrix]; rfl,
    cx_ideal0, cx_ideal1]
  congr 1
  have h5 : Real.sqrt 5 ^ 2 = 5 := Real.sq_sqrt (by norm_num)
  rw [show (-2/Real.sqrt 5 - 1/Real.sqrt 5 : ℝ) = -3/Real.sqrt 5 by ring, sub_self,
    div_pow, h5]
  norm_num

theorem cx_dMinus0 : distanceToAntiIdeal cxInput 0 = Real.sqrt 2 := by
  unfold distanceToAntiIdeal
  rw [show List.range (numCols cxInput) = [0, 1] from rfl]
  simp only [List.map_cons, List.map_nil, List.sum_cons, List.sum_nil]
  rw [show entry (weightedMatrix cxInput) 0 0 = -2/Real.sqrt 5 by
      rw [entry, cx_weightedMatrix]; rfl,
    show entry (weightedMatrix cxInput) 0 1 = 1/Real.sqrt 2 by
      rw [entry, cx_weightedMatrix]; rfl,
    cx_anti0, cx_anti1]
  congr 1
  have h2 : Real.sqrt 2 ^ 2 = 2 := Real.sq_sqrt (by norm_num)
  rw [sub_self, show (1/Real.sqrt 2 - -1/Real.sqrt 2 : ℝ) = 2/Real.sqrt 2 by ring,
    div_pow, h2]
  norm_num

theorem cx_dPlus2 : distanceToIdeal cxInput 2 = Real.sqrt 2 := by
  unfold distanceToIdeal
  rw [show List.range (numCols cxInput) = [0, 1] from rfl]
  simp only [List.map_cons, List.map_nil, List.sum_cons, List.sum_nil]
  rw [show entry (weightedMatrix cxInput) 2 0 = 1/Real.sqrt 5 by
      rw [entry, cx_weightedMatrix]; rfl,
    show entry (weightedMatrix cxInput) 2 1 = -1/Real.sqrt 2 by
      rw [entry, cx_weightedMatrix]; rfl,
    cx_ideal0, cx_ideal1]
  congr 1
  have h2 : Real.sqrt 2 ^ 2 = 2 := Real.sq_sqrt (by norm_num)
  rw [sub_self, show (-1/Real.sqrt 2 - 1/Real.sqrt 2 : ℝ) = -2/Real.sqrt 2 by ring,
    div_pow, h2]
  norm_num

theorem cx_dMinus2 : distanceToAntiIdeal cxInput 2 = Real.sqrt (9/5) := by
  unfold distanceToAntiIdeal
  rw [show List.range (numCols cxInput) = [0, 1] from rfl]
  simp only [List.map_cons, List.map_nil, List.sum_cons, List.sum_nil]
  rw [show entry (weightedMatrix cxInput) 2 0 = 1/Real.sqrt 5 by
      rw [entry, cx_weightedMatrix]; rfl,
    show entry (weightedMatrix cxInput) 2 1 = -1/Real.sqrt 2 by
      rw [entry, cx_weightedMatrix]; rfl,
    cx_anti0, cx_anti1]
  congr 1
  have h5 : Real.sqrt 5 ^ 2 = 5 := Real.sq_sqrt (by norm_num)
  rw [show (1/Real.sqrt 5 - -2/Real.sqrt 5 : ℝ) = 3/Real.sqrt 5 by ring, sub_self,
    div_pow, h5]
  norm_num

theorem cx_den_pos : (0:ℝ) < Real.sqrt (9/5) + Real.sqrt 2 := by positivity

theorem cx_scores0 :
    scores cxInput 0 = some (Real.sqrt 2 / (Real.sqrt (9/5) + Real.sqrt 2)) := by
  unfold scores
  rw [cx_dPlus0, cx_dMinus0, if_neg (ne_of_gt cx_den_pos)]

theorem cx_scores2 :
    scores cxInput 2 = some (Real.sqrt (9/5) / (Real.sqrt 2 + Real.sqrt (9/5))) := by
  unfold scores
  rw [cx_dPlus2, cx_dMinus2,
    if_neg (by rw [add_comm]; exact ne_of_gt cx_den_pos)]

theorem cx_before :
    Real.sqrt (9/5) / (Real.sqrt 2 + Real.sqrt (9/5)) <
      Real.sqrt 2 / (Real.sqrt (9/5) + Real.sqrt 2) := by
  rw [add_comm (Real.sqrt 2) (Real.sqrt (9/5))]
  exact (div_lt_div_iff_of_pos_right cx_den_pos).mpr
    (Real.sqrt_lt_sqrt (by norm_num) (by norm_num))

theorem cxp_initialMatrix : initialMatrix cxInput' = [[-2, 3], [0, 0], [1, -1]] := rfl

theorem cxp_S0 : sumOfSquares (initialMatrix cxInput') 0 = 5 := by
  rw [cxp_initialMatrix]
  norm_num [sumOfSquares, List.getD_cons_zero]

theorem cxp_S1 : sumOfSquares (initialMatrix cxInput') 1 = 10 := by
  rw [cxp_initialMatrix]
  norm_num [sumOfSquares, List.getD_cons_zero, List.getD_cons_succ]

theorem cxp_norm0 : colNorm (initialMatrix cxInput') 0 = Real.sqrt 5 := by
  rw [colNorm, cxp_S0]

theorem cxp_norm1 : colNorm (initialMatrix cxInput') 1 = Real.sqrt 10 := by
  rw [colNorm, cxp_S1]

theorem cxp_normalizedMatrix : normalizedMatrix cxInput' =
    [[-2/Real.sqrt 5, 3/Real.sqrt 10], [0, 0], [1/Real.sqrt 5, -1/Real.sqrt 10]] := by
  have h0 : colNorm [[(-2:ℝ), 3], [0, 0], [1, -1]] 0 = Real.sqrt 5 := by
    rw [← cxp_initialMatrix]; exact cxp_norm0
  have h1 : colNorm [[(-2:ℝ), 3], [0, 0], [1, -1]] 1 = Real.sqrt 10 := by
    rw [← cxp_initialMatrix]; exact cxp_norm1
  unfold normalizedMatrix
  rw [show List.range (numCols cxInput') = [0, 1] from rfl, cxp_initialMatrix]
  simp only [List.map_cons, List.map_nil, List.getD_cons_zero, List.getD_cons_succ]
  rw [h0, h1]
  simp only [if_neg sqrt5_ne, if_neg sqrt10_ne, zero_div]

theorem cxp_weightedMatrix : weightedMatrix cxInput' =
    [[-2/Real.sqrt 5, 3/Real.sqrt 10], [0, 0], [1/Real.sqrt 5, -1/Real.sqrt 10]] := by
  unfold weightedMatrix
  rw [show List.range (numCols cxInput') = [0, 1] from rfl, cxp_normalizedMatrix]
  simp only [List.map_cons, List.map_nil, List.getD_cons_zero, List.getD_cons_succ]
  rw [show weightAt cxInput' 0 = 1 from rfl, show weightAt cxInput' 1 = 1 from rfl]
  norm_num

theorem cxp_col0 : column (weightedMatrix cxInput') 0 =
    [-2/Real.sqrt 5, 0, 1/Real.sqrt 5] := by
  rw [column, cxp_weightedMatrix]
  rfl

theorem cxp_col1 : column (weightedMatrix cxInput') 1 =
    [3/Real.sqrt 10, 0, -1/Real.sqrt 10] := by
  rw [column, cxp_weightedMatrix]
  rfl

theorem cxp_ideal0 : idealSolution cxInput' 0 = 1/Real.sqrt 5 := by
  unfold idealSolution
  rw [show benefitFlagAt cxInput' 0 = true from rfl, cxp_col0]
  simp only [if_true]
  show max (max (-2/Real.sqrt 5) 0) (1/Real.sqrt 5) = 1/Real.sqrt 5
  have ha : -2/Real.sqrt 5 ≤ 0 := by
    rw [neg_div]; exact neg_nonpos.mpr (by positivity)
  rw [max_eq_right ha, max_eq_right (by positivity : (0:ℝ) ≤ 1/Real.sqrt 5)]

theorem cxp_anti0 : antiIdealSolution cxInput' 0 = -2/Real.sqrt 5 := by
  unfold antiIdealSolution
  rw [show benefitFlagAt cxInput' 0 = true from rfl, cxp_col0]
  simp only [if_true]
  show min (min (-2/Real.sqrt 5) 0) (1/Real.sqrt 5) = -2/Real.sqrt 5
  have ha : -2/Real.sqrt 5 ≤ 0 := by
    rw [neg_div]; exact neg_nonpos.mpr (by positivity)
  rw [min_eq_left ha, min_eq_left (le_trans ha (by positivity))]

theorem cxp_ideal1 : idealSolution cxInput' 1 = 3/Real.sqrt 10 := by
  unfold idealSolution
  rw [show benefitFlagAt cxInput' 1 = true from rfl, cxp_col1]
  simp only [if_true]
  show max (max (3/Real.sqrt 10) 0) (-1/Real.sqrt 10) = 3/Real.sqrt 10
  have hb : -1/Real.sqrt 10 ≤ 0 := by
    rw [neg_div]; exact neg_nonpos.mpr (by positivity)
  rw [max_eq_left (by positivity : (0:ℝ) ≤ 3/Real.sqrt 10),
    max_eq_left (le_trans hb (by positivity))]

theorem cxp_anti1 : antiIdealSolution cxInput' 1 = -1/Real.sqrt 10 := by
  unfold antiIdealSolution
  rw [show benefitFlagAt cxInput' 1 = true from rfl, cxp_col1]
  simp only [if_true]
  show min (min (3/Real.sqrt 10) 0) (-1/Real.sqrt 10) = -1/Real.sqrt 10
  have hb : -1/Real.sqrt 10 ≤ 0 := by
    rw [neg_div]; exact neg_nonpos.mpr (by positivity)
  rw [min_eq_right (by positivity : (0:ℝ) ≤ 3/Real.sqrt 10), min_eq_right hb]

theorem cxp_dPlus0 : distanceToIdeal cxInput' 0 = Real.sqrt (9/5) := by
  unfold distanceToIdeal
  rw [show List.range (numCols cxInput') = [0, 1] from rfl]
  simp only [List.map_cons, List.map_nil, List.sum_cons, List.sum_nil]
  rw [show entry (weightedMatrix cxInput') 0 0 = -2/Real.sqrt 5 by
      rw [entry, cxp_weightedMatrix]; rfl,
    show entry (weightedMatrix cxInput') 0 1 = 3/Real.sqrt 10 by
      rw [entry, cxp_weightedMatrix]; rfl,
    cxp_ideal0, cxp_ideal1]
  congr 1
  have h5 : Real.sqrt 5 ^ 2 = 5 := Real.sq_sqrt (by norm_num)
  rw [show (-2/Real.sqrt 5 - 1/Real.sqrt 5 : ℝ) = -3/Real.sqrt 5 by ring, sub_self,
    div_pow, h5]
  norm_num

theorem cxp_dMinus0 : distanceToAntiIdeal cxInput' 0 = Real.sqrt (8/5) := by
  unfold distanceToAntiIdeal
  rw [show List.range (numCols cxInput') = [0, 1] from rfl]
  simp only [List.map_cons, List.map_nil, List.sum_cons, List.sum_nil]
  rw [show entry (weightedMatrix cxInput') 0 0 = -2/Real.sqrt 5 by
      rw [entry, cxp_weightedMatrix]; rfl,
    show entry (weightedMatrix cxInput') 0 1 = 3/Real.sqrt 10 by
      rw [entry, cxp_weightedMatrix]; rfl,
    cxp_anti0, cxp_anti1]
  congr 1
  have h10 : Real.sqrt 10 ^ 2 = 10 := Real.sq_sqrt (by norm_num)
  rw [sub_self,
    show (3/Real.sqrt 10 - -1/Real.sqrt 10 : ℝ) = 4/Real.sqrt 10 by ring, div_pow, h10]
  norm_num

theorem cxp_dPlus2 : distanceToIdeal cxInput' 2 = Real.sqrt (8/5) := by
  unfold distanceToIdeal
  rw [show List.range (numCols cxInput') = [0, 1] from rfl]
  simp only [List.map_cons, List.map_nil, List.sum_cons, List.sum_nil]
  rw [show entry (weightedMatrix cxInput') 2 0 = 1/Real.sqrt 5 by
      rw [entry, cxp_weightedMatrix]; rfl,
    show entry (weightedMatrix cxInput') 2 1 = -1/Real.sqrt 10 by
      rw [entry, cxp_weightedMatrix]; rfl,
    cxp_ideal0, cxp_ideal1]
  congr 1
  have h10 : Real.sqrt 10 ^ 2 = 10 := Real.sq_sqrt (by norm_num)
  rw [sub_self,
    show (-1/Real.sqrt 10 - 3/Real.sqrt 10 : ℝ) = -4/Real.sqrt 10 by ring, div_pow, h10]
  norm_num

theorem cxp_dMinus2 : distanceToAntiIdeal cxInput' 2 = Real.sqrt (9/5) := by
  unfold distanceToAntiIdeal
  rw [show List.range (numCols cxInput') = [0, 1] from rfl]
  simp only [List.map_cons, List.map_nil, List.sum_cons, List.sum_nil]
  rw [show entry (weightedMatrix cxInput') 2 0 = 1/Real.sqrt 5 by
      rw [entry, cxp_weightedMatrix]; rfl,
    show entry (weightedMatrix cxInput') 2 1 = -1/Real.sqrt 10 by
      rw [entry, cxp_weightedMatrix]; rfl,
    cxp_anti0, cxp_anti1]
  congr 1
  have h5 : Real.sqrt 5 ^ 2 = 5 := Real.sq_sqrt (by norm_num)
  rw [show (1/Real.sqrt 5 - -2/Real.sqrt 5 : ℝ) = 3/Real.sqrt 5 by ring, sub_self,
    div_pow, h5]
  norm_num

theorem cxp_den_pos : (0:ℝ) < Real.sqrt (9/5) + Real.sqrt (8/5) := by positivity

theorem cxp_scores0 :
    scores cxInput' 0 = some (Real.sqrt (8/5) / (Real.sqrt (9/5) + Real.sqrt (8/5))) := by
  unfold scores
  rw [cxp_dPlus0, cxp_dMinus0, if_neg (ne_of_gt cxp_den_pos)]

theorem cxp_scores2 :
    scores cxInput' 2 = some (Real.sqrt (9/5) / (Real.sqrt (8/5) + Real.sqrt (9/5))) := by
  unfold scores
  rw [cxp_dPlus2, cxp_dMinus2,
    if_neg (by rw [add_comm]; exact ne_of_gt cxp_den_pos)]

theorem cxp_after :
    Real.sqrt (8/5) / (Real.sqrt (9/5) + Real.sqrt (8/5)) <
      Real.sqrt (9/5) / (Real.sqrt (8/5) + Real.sqrt (9/5)) := by
  rw [add_comm (Real.sqrt (8/5)) (Real.sqrt (9/5))]
  exact (div_lt_div_iff_of_pos_right cxp_den_pos).mpr
    (Real.sqrt_lt_sqrt (by norm_num) (by norm_num))

/-- C5 counterexample: the claimed monotonicity fails on the code. On the
concrete input `cxInput` (three materials on the two benefit criteria
`temp` and `corrosion`, every weight 1) material A scores strictly above
the untouched material C; after increasing only A's raw value on the
benefit criterion `corrosion` (weight 1 > 0) from 1 to 3, A scores strictly
below C, so A's rank relative to C decreased. -/
theorem claim5_counterexample :
    benefitFlag cxInput.allCriteriaDefinition CriterionKey.corrosion = true ∧
    (cxInput.weights CriterionKey.corrosion).getD 0 = 1 ∧
    cxInput.selectedMaterialsData = [cxA, cxB, cxC] ∧
    cxInput'.selectedMaterialsData = [{ cxA with corrosion := 3 }, cxB, cxC] ∧
    cxA.corrosion = 1 ∧ (1:ℝ) < 3 ∧
    cxInput'.selectedCriteriaKeys = cxInput.selectedCriteriaKeys ∧
    cxInput'.allCriteriaDefinition = cxInput.allCriteriaDefinition ∧
    cxInput'.weights = cxInput.weights ∧
    cxInput'.costs = cxInput.costs ∧
    (∃ sA sC, scores cxInput 0 = some sA ∧ scores cxInput 2 = some sC ∧ sC < sA) ∧
    (∃ sA sC, scores cxInput' 0 = some sA ∧ scores cxInput' 2 = some sC ∧ sA < sC) :=
  ⟨rfl, rfl, rfl, rfl, rfl, by norm_num, rfl, rfl, rfl, rfl,
    ⟨_, _, cx_scores0, cx_scores2, cx_before⟩,
    ⟨_, _, cxp_scores0, cxp_scores2, cxp_after⟩⟩

/-! ## Single-criterion analysis (for the amended monotonicity claim) -/

theorem sum_sq_eq_zero {l : List ℝ} (h : (l.map fun t => t ^ 2).sum = 0) :
    ∀ y ∈ l, y = 0 := by
  induction l with
  | nil => simp
  | cons a as ih =>
    simp only [List.map_cons, List.sum_cons] at h
    have hrest : 0 ≤ (as.map fun t => t ^ 2).sum := by
      refine List.sum_nonneg ?_
      intro u hu
      rcases List.mem_map.mp hu with ⟨y, _, rfl⟩
      positivity
    have ha2 : a ^ 2 = 0 := by nlinarith [sq_nonneg a]
    intro y hy
    rcases List.mem_cons.mp hy with rfl | hy
    · exact pow_eq_zero_iff (by norm_num) |>.mp ha2
    · exact ih (by nlinarith [sq_nonneg a]) y hy

theorem foldl_max_map_mul (c : ℝ) (hc : 0 ≤ c) :
    ∀ (xs : List ℝ) (a : ℝ),
      (xs.map fun t => c * t).foldl max (c * a) = c * xs.foldl max a := by
  intro xs
  induction xs with
  | nil => intro a; rfl
  | cons y ys ih =>
    intro a
    simp only [List.map_cons, List.foldl_cons]
    rw [← mul_max_of_nonneg _ _ hc]
    exact ih (max a y)

theorem foldl_min_map_mul (c : ℝ) (hc : 0 ≤ c) :
    ∀ (xs : List ℝ) (a : ℝ),
      (xs.map fun t => c * t).foldl min (c * a) = c * xs.foldl min a := by
  intro xs
  induction xs with
  | nil => intro a; rfl
  | cons y ys ih =>
    intro a
    simp only [List.map_cons, List.foldl_cons]
    rw [← mul_min_of_nonneg _ _ hc]
    exact ih (min a y)

theorem listMax_map_mul (c : ℝ) (hc : 0 ≤ c) (l : List ℝ) (hl : l ≠ []) :
    listMax (l.map fun t => c * t) = c * listMax l := by
  cases l with
  | nil => exact absurd rfl hl
  | cons a as =>
    simp only [List.map_cons, listMax]
    exact foldl_max_map_mul c hc as a

theorem listMin_map_mul (c : ℝ) (hc : 0 ≤ c) (l : List ℝ) (hl : l ≠ []) :
    listMin (l.map fun t => c * t) = c * listMin l := by
  cases l with
  | nil => exact absurd rfl hl
  | cons a as =>
    simp only [List.map_cons, listMin]
    exact foldl_min_map_mul c hc as a

theorem single_numCols (inp : TopsisInput) (k : CriterionKey)
    (hm : inp.selectedMaterialsData ≠ []) (hkeys : inp.selectedCriteriaKeys = [k]) :
    numCols inp = 1 := by
  rw [numCols_eq inp hm, hkeys]
  rfl

theorem single_initialMatrix (inp : TopsisInput) (k : CriterionKey)
    (hkeys : inp.selectedCriteriaKeys = [k]) :
    initialMatrix inp =
      inp.selectedMaterialsData.map fun m => [rawValue inp.costs m k] := by
  unfold initialMatrix
  rw [hkeys]
  rfl

theorem single_rawColumn_ne (inp : TopsisInput) (k : CriterionKey)
    (hm : inp.selectedMaterialsData ≠ []) : rawColumn inp k ≠ [] := by
  unfold rawColumn
  simp only [ne_eq, List.map_eq_nil_iff]
  exact hm

theorem single_rawColumn_mem (inp : TopsisInput) (k : CriterionKey) {i : ℕ}
    (hi : i < inp.selectedMaterialsData.length) :
    rawValue inp.costs (inp.selectedMaterialsData.getD i default) k ∈ rawColumn inp k := by
  rw [List.getD_eq_getElem _ _ hi]
  exact List.mem_map_of_mem _ (List.getElem_mem hi)

theorem single_weightAt (inp : TopsisInput) (k : CriterionKey)
    (hkeys : inp.selectedCriteriaKeys = [k]) :
    weightAt inp 0 = (inp.weights k).getD 0 := by
  unfold weightAt
  rw [hkeys]
  rfl

theorem single_entryM (inp : TopsisInput) (k : CriterionKey)
    (hkeys : inp.selectedCriteriaKeys = [k]) {i : ℕ}
    (hi : i < inp.selectedMaterialsData.length) :
    entry (initialMatrix inp) i 0 =
      rawValue inp.costs (inp.selectedMaterialsData.getD i default) k := by
  have h := entry_initialMatrix inp hi (j := 0) (by rw [hkeys]; norm_num)
  rw [hkeys] at h
  simpa using h

theorem single_entryW (inp : TopsisInput) (k : CriterionKey)
    (hm : inp.selectedMaterialsData ≠ []) (hkeys : inp.selectedCriteriaKeys = [k]) {i : ℕ}
    (hi : i < inp.selectedMaterialsData.length) :
    entry (weightedMatrix inp) i 0 =
      (if colNorm (initialMatrix inp) 0 = 0 then 0
       else rawValue inp.costs (inp.selectedMaterialsData.getD i default) k /
         colNorm (initialMatrix inp) 0) * (inp.weights k).getD 0 := by
  have hi' : i < (initialMatrix inp).length := by rw [length_initialMatrix]; exact hi
  have hj : (0:ℕ) < numCols inp := by rw [single_numCols inp k hm hkeys]; norm_num
  rw [entry_weightedMatrix inp hi' hj, entry_normalizedMatrix inp hi' hj,
    single_entryM inp k hkeys hi, single_weightAt inp k hkeys]

theorem single_columnW (inp : TopsisInput) (k : CriterionKey)
    (hm : inp.selectedMaterialsData ≠ []) (hkeys : inp.selectedCriteriaKeys = [k]) :
    column (weightedMatrix inp) 0 =
      (rawColumn inp k).map fun t =>
        (if colNorm (initialMatrix inp) 0 = 0 then 0
         else t / colNorm (initialMatrix inp) 0) * (inp.weights k).getD 0 := by
  have hnc : numCols inp = 1 := single_numCols inp k hm hkeys
  unfold column weightedMatrix
  rw [List.map_map]
  have h1 : ((fun row : List ℝ => row.getD 0 0) ∘ fun row : List ℝ =>
      (List.range (numCols inp)).map fun j => row.getD j 0 * weightAt inp j) =
      fun row : List ℝ => row.getD 0 0 * weightAt inp 0 := by
    funext row
    simp only [Function.comp]
    rw [getD_range_map _ _ (by rw [hnc]; norm_num)]
  rw [h1]
  unfold normalizedMatrix
  rw [List.map_map]
  have h2 : ((fun row : List ℝ => row.getD 0 0 * weightAt inp 0) ∘ fun row : List ℝ =>
      (List.range (numCols inp)).map fun j =>
        if colNorm (initialMatrix inp) j = 0 then 0
        else row.getD j 0 / colNorm (initialMatrix inp) j) =
      fun row : List ℝ =>
        (if colNorm (initialMatrix inp) 0 = 0 then 0
         else row.getD 0 0 / colNorm (initialMatrix inp) 0) * weightAt inp 0 := by
    funext row
    simp only [Function.comp]
    rw [getD_range_map _ _ (by rw [hnc]; norm_num)]
  rw [h2, single_weightAt inp k hkeys, single_initialMatrix inp k hkeys]
  unfold rawColumn
  rw [List.map_map, List.map_map]
  rfl

theorem single_benefitFlagAt (inp : TopsisInput) (k : CriterionKey)
    (hkeys : inp.selectedCriteriaKeys = [k])
    (hben : benefitFlag inp.allCriteriaDefinition k = true) :
    benefitFlagAt inp 0 = true := by
  have hk0 : inp.selectedCriteriaKeys[0]? = some k := by rw [hkeys]; rfl
  rw [benefitFlagAt_eq inp hk0]
  exact hben

theorem single_ideal (inp : TopsisInput) (k : CriterionKey)
    (hkeys : inp.selectedCriteriaKeys = [k])
    (hben : benefitFlag inp.allCriteriaDefinition k = true) :
    idealSolution inp 0 = listMax (column (weightedMatrix inp) 0) := by
  unfold idealSolution
  rw [single_benefitFlagAt inp k hkeys hben]
  simp only [if_true]

theorem single_anti (inp : TopsisInput) (k : CriterionKey)
    (hkeys : inp.selectedCriteriaKeys = [k])
    (hben : benefitFlag inp.allCriteriaDefinition k = true) :
    antiIdealSolution inp 0 = listMin (column (weightedMatrix inp) 0) := by
  unfold antiIdealSolution
  rw [single_benefitFlagAt inp k hkeys hben]
  simp only [if_true]

theorem single_entryW_mem (inp : TopsisInput) {i : ℕ}
    (hi : i < inp.selectedMaterialsData.length) :
    entry (weightedMatrix inp) i 0 ∈ column (weightedMatrix inp) 0 := by
  apply entry_mem_column
  rw [length_weightedMatrix, length_initialMatrix]
  exact hi

theorem single_dPlus (inp : TopsisInput) (k : CriterionKey)
    (hm : inp.selectedMaterialsData ≠ []) (hkeys : inp.selectedCriteriaKeys = [k])
    (hben : benefitFlag inp.allCriteriaDefinition k = true) {i : ℕ}
    (hi : i < inp.selectedMaterialsData.length) :
    distanceToIdeal inp i =
      listMax (column (weightedMatrix inp) 0) - entry (weightedMatrix inp) i 0 := by
  have hr : List.range (numCols inp) = [0] := by rw [single_numCols inp k hm hkeys]; rfl
  unfold distanceToIdeal
  rw [hr]
  simp only [List.map_cons, List.map_nil, List.sum_cons, List.sum_nil]
  rw [single_ideal inp k hkeys hben, add_zero, Real.sqrt_sq_eq_abs,
    abs_of_nonpos (sub_nonpos.mpr (le_listMax (single_entryW_mem inp hi))), neg_sub]

theorem single_dMinus (inp : TopsisInput) (k : CriterionKey)
    (hm : inp.selectedMaterialsData ≠ []) (hkeys : inp.selectedCriteriaKeys = [k])
    (hben : benefitFlag inp.allCriteriaDefinition k = true) {i : ℕ}
    (hi : i < inp.selectedMaterialsData.length) :
    distanceToAntiIdeal inp i =
      entry (weightedMatrix inp) i 0 - listMin (column (weightedMatrix inp) 0) := by
  have hr : List.range (numCols inp) = [0] := by rw [single_numCols inp k hm hkeys]; rfl
  unfold distanceToAntiIdeal
  rw [hr]
  simp only [List.map_cons, List.map_nil, List.sum_cons, List.sum_nil]
  rw [single_anti inp k hkeys hben, add_zero, Real.sqrt_sq_eq_abs,
    abs_of_nonneg (sub_nonneg.mpr (listMin_le (single_entryW_mem inp hi)))]

theorem single_scores_col (inp : TopsisInput) (k : CriterionKey)
    (hm : inp.selectedMaterialsData ≠ []) (hkeys : inp.selectedCriteriaKeys = [k])
    (hben : benefitFlag inp.allCriteriaDefinition k = true) {i : ℕ}
    (hi : i < inp.selectedMaterialsData.length) :
    scores inp i =
      if listMax (column (weightedMatrix inp) 0) = listMin (column (weightedMatrix inp) 0)
      then none
      else some ((entry (weightedMatrix inp) i 0 - listMin (column (weightedMatrix inp) 0)) /
        (listMax (column (weightedMatrix inp) 0) - listMin (column (weightedMatrix inp) 0))) := by
  unfold scores
  rw [single_dPlus inp k hm hkeys hben hi, single_dMinus inp k hm hkeys hben hi,
    show listMax (column (weightedMatrix inp) 0) - entry (weightedMatrix inp) i 0 +
      (entry (weightedMatrix inp) i 0 - listMin (column (weightedMatrix inp) 0)) =
      listMax (column (weightedMatrix inp) 0) - listMin (column (weightedMatrix inp) 0)
      from by ring]
  by_cases hc :
      listMax (column (weightedMatrix inp) 0) = listMin (column (weightedMatrix inp) 0)
  · rw [if_pos (sub_eq_zero.mpr hc), if_pos hc]
  · rw [if_neg (fun h => hc (sub_eq_zero.mp h)), if_neg hc]

theorem single_columnW_scaled (inp : TopsisInput) (k : CriterionKey)
    (hm : inp.selectedMaterialsData ≠ []) (hkeys : inp.selectedCriteriaKeys = [k])
    (hnz : colNorm (initialMatrix inp) 0 ≠ 0) :
    column (weightedMatrix inp) 0 =
      (rawColumn inp k).map fun t =>
        ((inp.weights k).getD 0 / colNorm (initialMatrix inp) 0) * t := by
  rw [single_columnW inp k hm hkeys]
  congr 1
  funext t
  rw [if_neg hnz]
  ring

theorem single_scores_raw (inp : TopsisInput) (k : CriterionKey)
    (hm : inp.selectedMaterialsData ≠ []) (hkeys : inp.selectedCriteriaKeys = [k])
    (hben : benefitFlag inp.allCriteriaDefinition k = true)
    (hwpos : 0 < (inp.weights k).getD 0) {i : ℕ}
    (hi : i < inp.selectedMaterialsData.length) :
    scores inp i =
      if listMax (rawColumn inp k) = listMin (rawColumn inp k) then none
      else some
        ((rawValue inp.costs (inp.selectedMaterialsData.getD i default) k -
            listMin (rawColumn inp k)) /
          (listMax (rawColumn inp k) - listMin (rawColumn inp k))) := by
  by_cases hnz : colNorm (initialMatrix inp) 0 = 0
  · -- degenerate column: every raw value is 0, every score is the sentinel
    have hS : sumOfSquares (initialMatrix inp) 0 = 0 := by
      rw [colNorm] at hnz
      exact le_antisymm (Real.sqrt_eq_zero'.mp hnz)
        (sumOfSquares_nonneg (initialMatrix inp) 0)
    have hsum : sumOfSquares (initialMatrix inp) 0 =
        ((rawColumn inp k).map fun t => t ^ 2).sum := by
      unfold sumOfSquares rawColumn
      rw [single_initialMatrix inp k hkeys, List.map_map, List.map_map]
      rfl
    have hzero : ∀ y ∈ rawColumn inp k, y = 0 := by
      apply sum_sq_eq_zero
      rw [← hsum]
      exact hS
    have hmaxmin : listMax (rawColumn inp k) = listMin (rawColumn inp k) := by
      rw [hzero _ (listMax_mem (single_rawColumn_ne inp k hm)),
        hzero _ (listMin_mem (single_rawColumn_ne inp k hm))]
    rw [if_pos hmaxmin, single_scores_col inp k hm hkeys hben hi]
    have hcol : ∀ y ∈ column (weightedMatrix inp) 0, y = 0 := by
      rw [single_columnW inp k hm hkeys]
      intro y hy
      rcases List.mem_map.mp hy with ⟨t, _, rfl⟩
      rw [if_pos hnz, zero_mul]
    have hne : column (weightedMatrix inp) 0 ≠ [] := by
      apply List.ne_nil_of_length_pos
      rw [length_column, length_weightedMatrix, length_initialMatrix]
      exact List.length_pos.mpr hm
    rw [if_pos (by rw [hcol _ (listMax_mem hne), hcol _ (listMin_mem hne)])]
  · have hnpos : 0 < colNorm (initialMatrix inp) 0 :=
      lt_of_le_of_ne (Real.sqrt_nonneg _) (Ne.symm hnz)
    have hcpos : 0 < (inp.weights k).getD 0 / colNorm (initialMatrix inp) 0 :=
      div_pos hwpos hnpos
    rw [single_scores_col inp k hm hkeys hben hi,
      single_columnW_scaled inp k hm hkeys hnz,
      listMax_map_mul _ (le_of_lt hcpos) _ (single_rawColumn_ne inp k hm),
      listMin_map_mul _ (le_of_lt hcpos) _ (single_rawColumn_ne inp k hm),
      show entry (weightedMatrix inp) i 0 =
        ((inp.weights k).getD 0 / colNorm (initialMatrix inp) 0) *
          rawValue inp.costs (inp.selectedMaterialsData.getD i default) k
        from by rw [single_entryW inp k hm hkeys hi, if_neg hnz]; ring]
    by_cases hmm : listMax (rawColumn inp k) = listMin (rawColumn inp k)
    · rw [if_pos (by rw [hmm]), if_pos hmm]
    · rw [if_neg (fun h => hmm (mul_left_cancel₀ (ne_of_gt hcpos) h)), if_neg hmm]
      congr 1
      rw [show ((inp.weights k).getD 0 / colNorm (initialMatrix inp) 0) *
            rawValue inp.costs (inp.selectedMaterialsData.getD i default) k -
          ((inp.weights k).getD 0 / colNorm (initialMatrix inp) 0) *
            listMin (rawColumn inp k) =
          ((inp.weights k).getD 0 / colNorm (initialMatrix inp) 0) *
            (rawValue inp.costs (inp.selectedMaterialsData.getD i default) k -
              listMin (rawColumn inp k)) from by ring,
        show ((inp.weights k).getD 0 / colNorm (initialMatrix inp) 0) *
            listMax (rawColumn inp k) -
          ((inp.weights k).getD 0 / colNorm (initialMatrix inp) 0) *
            listMin (rawColumn inp k) =
          ((inp.weights k).getD 0 / colNorm (initialMatrix inp) 0) *
            (listMax (rawColumn inp k) - listMin (rawColumn inp k)) from by ring,
        mul_div_mul_left _ _ (ne_of_gt hcpos)]

/-- C5 amended: with exactly one selected criterion, benefit-type and of
weight > 0, increasing one material's raw value on it while every other
material's raw value is unchanged does not decrease that material's
score-rank relative to any unchanged material (NaN compared as lowest). -/
theorem claim5_amended_single_criterion
    (inp inp' : TopsisInput) (k : CriterionKey) (a b : ℕ)
    (hkeys : inp.selectedCriteriaKeys = [k])
    (hkeys' : inp'.selectedCriteriaKeys = [k])
    (hdefs : inp'.allCriteriaDefinition = inp.allCriteriaDefinition)
    (hben : benefitFlag inp.allCriteriaDefinition k = true)
    (hw : 0 < (inp.weights k).getD 0)
    (hw' : (inp'.weights k).getD 0 = (inp.weights k).getD 0)
    (hlen : inp'.selectedMaterialsData.length = inp.selectedMaterialsData.length)
    (ha : a < inp.selectedMaterialsData.length)
    (hb : b < inp.selectedMaterialsData.length)
    (hab : a ≠ b)
    (hother : ∀ i < inp.selectedMaterialsData.length, i ≠ a →
      rawValue inp'.costs (inp'.selectedMaterialsData.getD i default) k =
        rawValue inp.costs (inp.selectedMaterialsData.getD i default) k)
    (hinc : rawValue inp.costs (inp.selectedMaterialsData.getD a default) k <
      rawValue inp'.costs (inp'.selectedMaterialsData.getD a default) k)
    (hge : scoreKeyGE (scores inp a) (scores inp b)) :
    scoreKeyGE (scores inp' a) (scores inp' b) := by
  have hm : inp.selectedMaterialsData ≠ [] := by
    intro h
    rw [h] at ha
    simp at ha
  have hm' : inp'.selectedMaterialsData ≠ [] := by
    intro h
    rw [h] at hlen
    rw [← hlen] at ha
    simp at ha
  have hben' : benefitFlag inp'.allCriteriaDefinition k = true := by
    rw [hdefs]; exact hben
  have hw'pos : 0 < (inp'.weights k).getD 0 := by rw [hw']; exact hw
  have ha' : a < inp'.selectedMaterialsData.length := by rw [hlen]; exact ha
  have hb' : b < inp'.selectedMaterialsData.length := by rw [hlen]; exact hb
  have hxb'_eq : rawValue inp'.costs (inp'.selectedMaterialsData.getD b default) k =
      rawValue inp.costs (inp.selectedMaterialsData.getD b default) k :=
    hother b hb (Ne.symm hab)
  have hXne : rawColumn inp k ≠ [] := single_rawColumn_ne inp k hm
  have hXne' : rawColumn inp' k ≠ [] := single_rawColumn_ne inp' k hm'
  have hminmax : listMin (rawColumn inp k) ≤ listMax (rawColumn inp k) :=
    listMin_le (listMax_mem hXne)
  have key : rawValue inp'.costs (inp'.selectedMaterialsData.getD b default) k <
      rawValue inp'.costs (inp'.selectedMaterialsData.getD a default) k := by
    rcases eq_or_ne (listMax (rawColumn inp k)) (listMin (rawColumn inp k)) with
      hcase | hcase
    · -- before the change every raw value coincides
      have hma := le_listMax (single_rawColumn_mem inp k ha)
      have hmb := listMin_le (single_rawColumn_mem inp k hb)
      rw [hcase] at hma
      have h1 : rawValue inp.costs (inp.selectedMaterialsData.getD a default) k =
          rawValue inp.costs (inp.selectedMaterialsData.getD b default) k := by
        have hma' := listMin_le (single_rawColumn_mem inp k ha)
        have hmb' := le_listMax (single_rawColumn_mem inp k hb)
        rw [hcase] at hmb'
        linarith
      rw [hxb'_eq, ← h1]
      exact hinc
    · -- before the change the scores are numeric and ordered like the raw values
      have hlt : listMin (rawColumn inp k) < listMax (rawColumn inp k) :=
        lt_of_le_of_ne hminmax (Ne.symm hcase)
      have hsa := single_scores_raw inp k hm hkeys hben hw ha
      have hsb := single_scores_raw inp k hm hkeys hben hw hb
      rw [if_neg hcase] at hsa hsb
      rw [hsa, hsb] at hge
      have hle : (rawValue inp.costs (inp.selectedMaterialsData.getD b default) k -
            listMin (rawColumn inp k)) /
          (listMax (rawColumn inp k) - listMin (rawColumn inp k)) ≤
          (rawValue inp.costs (inp.selectedMaterialsData.getD a default) k -
            listMin (rawColumn inp k)) /
          (listMax (rawColumn inp k) - listMin (rawColumn inp k)) := hge
      have hdpos : 0 < listMax (rawColumn inp k) - listMin (rawColumn inp k) := by
        linarith
      have hxba : rawValue inp.costs (inp.selectedMaterialsData.getD b default) k ≤
          rawValue inp.costs (inp.selectedMaterialsData.getD a default) k := by
        have h2 := (div_le_div_iff_of_pos_right hdpos).mp hle
        linarith
      rw [hxb'_eq]
      exact lt_of_le_of_lt hxba hinc
  have hmem_a' := le_listMax (single_rawColumn_mem inp' k ha')
  have hmem_b' := listMin_le (single_rawColumn_mem inp' k hb')
  have hcase' : listMax (rawColumn inp' k) ≠ listMin (rawColumn inp' k) := by
    intro heq
    rw [heq] at hmem_a'
    linarith
  have hsa' := single_scores_raw inp' k hm' hkeys' hben' hw'pos ha'
  have hsb' := single_scores_raw inp' k hm' hkeys' hben' hw'pos hb'
  rw [if_neg hcase'] at hsa' hsb'
  rw [hsa', hsb']
  refine scoreKeyGE_some_some.mpr ?_
  have hdpos' : 0 < listMax (rawColumn inp' k) - listMin (rawColumn inp' k) :=
    sub_pos.mpr (lt_of_le_of_ne (listMin_le (listMax_mem hXne')) (Ne.symm hcase'))
  exact (div_le_div_iff_of_pos_right hdpos').mpr (by linarith)

theorem mw_sa : scores mwInput 0 = some 1 := by
  have h := single_scores_raw mwInput CriterionKey.temp (by simp [mwInput]) rfl rfl
    (by norm_num [mwInput]) (i := 0) (by simp [mwInput])
  have hX : rawColumn mwInput CriterionKey.temp = [2, 1] := rfl
  rw [hX] at h
  rw [h, if_neg ?hne]
  case hne =>
    show ¬ listMax [(2:ℝ), 1] = listMin [(2:ℝ), 1]
    rw [show listMax [(2:ℝ), 1] = max 2 1 from rfl, show listMin [(2:ℝ), 1] = min 2 1 from rfl,
      max_eq_left (by norm_num : (1:ℝ) ≤ 2), min_eq_right (by norm_num : (1:ℝ) ≤ 2)]
    norm_num
  rw [show listMax [(2:ℝ), 1] = max 2 1 from rfl, show listMin [(2:ℝ), 1] = min 2 1 from rfl,
    max_eq_left (by norm_num : (1:ℝ) ≤ 2), min_eq_right (by norm_num : (1:ℝ) ≤ 2)]
  norm_num [mwInput, rawValue]

theorem mw_sb : scores mwInput 1 = some 0 := by
  have h := single_scores_raw mwInput CriterionKey.temp (by simp [mwInput]) rfl rfl
    (by norm_num [mwInput]) (i := 1) (by simp [mwInput])
  have hX : rawColumn mwInput CriterionKey.temp = [2, 1] := rfl
  rw [hX] at h
  rw [h, if_neg ?hne]
  case hne =>
    show ¬ listMax [(2:ℝ), 1] = listMin [(2:ℝ), 1]
    rw [show listMax [(2:ℝ), 1] = max 2 1 from rfl, show listMin [(2:ℝ), 1] = min 2 1 from rfl,
      max_eq_left (by norm_num : (1:ℝ) ≤ 2), min_eq_right (by norm_num : (1:ℝ) ≤ 2)]
    norm_num
  rw [show listMax [(2:ℝ), 1] = max 2 1 from rfl, show listMin [(2:ℝ), 1] = min 2 1 from rfl,
    max_eq_left (by norm_num : (1:ℝ) ≤ 2), min_eq_right (by norm_num : (1:ℝ) ≤ 2)]
  norm_num [mwInput, rawValue]

theorem claim5_amended_single_criterion_witness :
    mwInput.selectedCriteriaKeys = [CriterionKey.temp] ∧
    benefitFlag mwInput.allCriteriaDefinition CriterionKey.temp = true ∧
    0 < (mwInput.weights CriterionKey.temp).getD 0 ∧
    (0:ℕ) ≠ 1 ∧
    rawValue mwInput.costs (mwInput.selectedMaterialsData.getD 0 default)
        CriterionKey.temp <
      rawValue mwInput'.costs (mwInput'.selectedMaterialsData.getD 0 default)
        CriterionKey.temp ∧
    scoreKeyGE (scores mwInput 0) (scores mwInput 1) ∧
    scoreKeyGE (scores mwInput' 0) (scores mwInput' 1) := by
  have hge : scoreKeyGE (scores mwInput 0) (scores mwInput 1) := by
    rw [mw_sa, mw_sb]
    exact scoreKeyGE_some_some.mpr (by norm_num)
  refine ⟨rfl, rfl, by norm_num [mwInput], by norm_num,
    by show (2:ℝ) < 3; norm_num, hge, ?_⟩
  exact claim5_amended_single_criterion mwInput mwInput' CriterionKey.temp 0 1
    rfl rfl rfl rfl (by norm_num [mwInput]) rfl rfl
    (by simp [mwInput]) (by simp [mwInput]) (by norm_num)
    (by
      intro i hi hne
      have : i = 1 := by
        simp [mwInput] at hi
        omega
      subst this
      rfl)
    (by show (2:ℝ) < 3; norm_num) hge

end Topsis
